import Mathlib

/-!
Shallow embedding of `compute_derived_state_vars`
(src/vic/drivers/shared_all/src/compute_derived_state_vars.c) from the VIC
hydrological model, together with proofs about its tile selection, snapshot
staging, thermal-node parameterization latch, stability advisory, error
propagation and frame behaviour.

Doubles are modelled as rationals.  The external collaborators that this
routine calls (`compute_runoff_and_asat`, `wrap_compute_zwt`,
`set_node_parameters`, `distribute_node_moisture_properties`,
`estimate_layer_ice_content_quick_flux`, `estimate_layer_ice_content`,
`find_0_degree_fronts`) are not part of this translation unit; they are taken
as parameters (`Ext` below) with exactly the argument flow of the call sites.
The run is instrumented with a trace of events recording the calls, the
snapshot-buffer accesses and the stability advisory.
-/

namespace VIC

/-- Events recorded while the routine runs.  Snapshot accesses carry the
indices used on the scratch arrays `moist`/`ice`; the stability-check event
carries node-1 heat capacity, node-1 conductivity and the computed threshold;
the write-back event carries the values written back into the soil column. -/
inductive Event where
  | snapWriteM (veg band lidx : Nat)
  | snapWriteI (veg band lidx frost : Nat)
  | runoffAsat (veg band : Nat)
  | setNodeParams
  | distributeCall (veg band : Nat)
  | stabCheck (veg band : Nat) (cs1 kp1 thresh : ℚ)
  | stabWarn (veg band : Nat)
  | snapReadM (veg band lidx : Nat)
  | snapReadI (veg band lidx frost : Nat)
  | writeBack (veg band : Nat) (m : List ℚ) (i : List (List ℚ))
  | quickFluxCall (veg band : Nat)
  | fullEstimateCall (veg band : Nat)
  | frontsCall (veg band : Nat)
deriving DecidableEq

/-- Mirror of the `option_struct` fields read by this routine. -/
structure OptionsS where
  SNOW_BAND : Nat
  Nlayer : Nat
  Nfrost : Nat
  Nnode : Nat
  FULL_ENERGY : Bool
  FROZEN_SOIL : Bool
  QUICK_FLUX : Bool
  IMPLICIT : Bool

/-- Mirror of the read-only `soil_con_struct` fields used here (the
node-grid fields that `set_node_parameters` overwrites are kept separately
in `NodeGrid`).  Per the spec these inputs are read-only to the subsystem. -/
structure SoilCon where
  AreaFract : Nat → ℚ
  dz_node : Nat → ℚ
  avg_temp : ℚ
  dp : ℚ
  FS_ACTIVE : Bool
  depth : Nat → ℚ
  max_moist : Nat → ℚ
  expt : Nat → ℚ
  bubble : Nat → ℚ
  quartz : Nat → ℚ
  soil_density : Nat → ℚ
  bulk_density : Nat → ℚ
  soil_dens_min : Nat → ℚ
  bulk_dens_min : Nat → ℚ
  organic : Nat → ℚ
  frost_fract : Nat → ℚ
  frost_slope : ℚ
  alpha : Nat → ℚ
  beta : Nat → ℚ
  gamma : Nat → ℚ

/-- Mirror of `veg_con_struct`: the tile count and the cover fraction of
each vegetation index. -/
structure VegCon where
  vegetat_type_num : Nat
  Cv : Nat → ℚ

/-- The soil-thermal node grid stored in `soil_con` and (re)written by
`set_node_parameters`. -/
structure NodeGrid where
  Zsum_node : Nat → ℚ
  max_moist_node : Nat → ℚ
  expt_node : Nat → ℚ
  bubble_node : Nat → ℚ

/-- Per-tile `cell_data_struct` portion used here: per-layer moisture,
per-layer per-frost-area ice, saturated-area fraction, water-table depth. -/
structure CellTile where
  layerMoist : Nat → ℚ
  layerIce : Nat → Nat → ℚ
  asat : ℚ
  zwt : ℚ

/-- Per-tile `energy_bal_struct` portion used here: node temperatures
(read-only in this routine), per-node moisture/ice/conductivity/heat
capacity, and the freezing/thawing front depths. -/
structure EnergyTile where
  T : Nat → ℚ
  moist : Nat → ℚ
  ice : Nat → ℚ
  kappa_node : Nat → ℚ
  Cs_node : Nat → ℚ
  fdepth : Nat → ℚ
  tdepth : Nat → ℚ

/-- A snapshot-buffer row: the captured per-layer moisture and per-layer
per-frost-area ice of one tile. -/
abbrev SnapRow := (Nat → ℚ) × (Nat → Nat → ℚ)

/-- Output of `distribute_node_moisture_properties`: per-node moisture, ice,
thermal conductivity and heat capacity. -/
abbrev NodeOut := (Nat → ℚ) × (Nat → ℚ) × (Nat → ℚ) × (Nat → ℚ)

/-- Output of either ice-content estimator: the updated per-layer moisture
and per-layer per-frost-area ice of the tile's soil column. -/
abbrev LayersOut := (Nat → ℚ) × (Nat → Nat → ℚ)

/-- Modelled from the spec: the bodies of the collaborators called by
`compute_derived_state_vars` are not in this translation unit
(`compute_runoff_and_asat`, `wrap_compute_zwt`, `set_node_parameters`,
`distribute_node_moisture_properties`, `estimate_layer_ice_content_quick_flux`,
`estimate_layer_ice_content`, `find_0_degree_fronts`).  Each field carries
exactly the data flow of the corresponding call site: inputs are the
arguments passed there, outputs are the locations the callee writes, and a
`none` result stands for `ErrorFlag == ERROR` (a property-derivation error,
which per the spec is fatal for the cell). -/
structure Ext where
  compute_runoff_and_asat : SoilCon → (Nat → ℚ) → ℚ × ℚ
  wrap_compute_zwt : SoilCon → CellTile → ℚ
  set_node_parameters : NodeGrid → SoilCon → Nat → Nat → NodeGrid
  distribute_node_moisture_properties :
    NodeGrid → (Nat → ℚ) → (Nat → ℚ) → SoilCon → Nat → Nat → Option NodeOut
  estimate_layer_ice_content_quick_flux :
    (Nat → ℚ) → (Nat → Nat → ℚ) → SoilCon → ℚ → ℚ → Option LayersOut
  estimate_layer_ice_content :
    (Nat → ℚ) → (Nat → Nat → ℚ) → (Nat → ℚ) → (Nat → ℚ) → SoilCon → Nat → Nat →
      Option LayersOut
  find_0_degree_fronts : (Nat → ℚ) → (Nat → ℚ) → Nat → (Nat → ℚ) × (Nat → ℚ)

/-- The mutable state threaded through the routine: the per-tile cell and
energy structures, the node grid held in `soil_con`, the local scratch
snapshot buffer (`none` = never written), the `FIRST_VEG` latch and the
event trace. -/
structure St where
  cell : Nat → Nat → CellTile
  energy : Nat → Nat → EnergyTile
  nodeGrid : NodeGrid
  snap : Nat → Nat → Option SnapRow
  firstVeg : Bool
  trace : List Event

/-- Point update of a doubly indexed family (mirrors writing through
`cell[veg][band]` / `energy[veg][band]`). -/
def upd2 {α : Type} (f : Nat → Nat → α) (v b : Nat) (x : α) : Nat → Nat → α :=
  fun v2 b2 => if v2 = v ∧ b2 = b then x else f v2 b2

/-- Modelled from the spec: `log_err` (logging plumbing, not under src/).
Per the spec the stability advisory is a non-fatal diagnostic: it is
recorded and processing continues. -/
def logWarn (st : St) (e : Event) : St :=
  { st with trace := st.trace ++ [e] }

/-- Modelled from the spec: `log_err` (logging plumbing, not under src/).
Per the spec a property-derivation error reported by a delegated computation
is fatal for the current cell: processing aborts and the error is surfaced
to the caller. -/
def logFatal (st : St) : Except St St :=
  .error st

/-- The snapshot row captured in pass 1 from a tile's soil column: the
entries written by the `lidx`/`frost_area` loops (indices outside the
configured counts were never written; they are modelled as `0`). -/
def capturedRow (op : OptionsS) (cl : CellTile) : SnapRow :=
  (fun l => if l < op.Nlayer then cl.layerMoist l else 0,
   fun l f => if l < op.Nlayer ∧ f < op.Nfrost then cl.layerIce l f else 0)

/-- Trace of the snapshot-buffer writes performed for one tile in pass 1. -/
def snapWriteEvs (op : OptionsS) (v b : Nat) : List Event :=
  (List.range op.Nlayer).flatMap (fun l =>
    Event.snapWriteM v b l ::
      (List.range op.Nfrost).map (fun f => Event.snapWriteI v b l f))

/-- Trace of the snapshot-buffer reads performed by the write-back loop of
one tile in pass 2. -/
def snapReadEvs (op : OptionsS) (v b : Nat) : List Event :=
  (List.range op.Nlayer).flatMap (fun l =>
    Event.snapReadM v b l ::
      (List.range op.Nfrost).map (fun f => Event.snapReadI v b l f))

/-- Events of one selected tile in pass 1. -/
def tileEv1 (op : OptionsS) (v b : Nat) : List Event :=
  snapWriteEvs op v b ++ [Event.runoffAsat v b]

/-- Pass-1 body for one selected tile (lines 76-93): capture the snapshot
row, then compute saturated area and water table. -/
def tileBody1 (E : Ext) (op : OptionsS) (sc : SoilCon) (v b : Nat) (st : St) : St :=
  let cl := st.cell v b
  let row := capturedRow op cl
  let ra := E.compute_runoff_and_asat sc row.1
  let cl1 := { cl with asat := ra.1 }
  let cl2 := { cl1 with zwt := E.wrap_compute_zwt sc cl1 }
  { st with
    cell := upd2 st.cell v b cl2,
    snap := upd2 st.snap v b (some row),
    trace := st.trace ++ tileEv1 op v b }

/-- Pass 1 (lines 68-96): loop over vegetation indices `0..Nveg` and bands,
processing tiles with positive cover fraction and positive band area. -/
def pass1 (E : Ext) (op : OptionsS) (sc : SoilCon) (vc : VegCon) (st : St) : St :=
  (List.range (vc.vegetat_type_num + 1)).foldl (fun s v =>
    if 0 < vc.Cv v then
      (List.range op.SNOW_BAND).foldl (fun s2 b =>
        if 0 < sc.AreaFract b then tileBody1 E op sc v b s2 else s2) s
    else s) st

/-- The `FIRST_VEG` latch (lines 112-123): on the first selected tile of
pass 2, derive the node grid once via `set_node_parameters`. -/
def latchStep (E : Ext) (op : OptionsS) (sc : SoilCon) (st : St) : St :=
  if st.firstVeg then
    { st with
      firstVeg := false,
      nodeGrid := E.set_node_parameters st.nodeGrid sc op.Nnode op.Nlayer,
      trace := st.trace ++ [Event.setNodeParams] }
  else st

/-- The snapshot row of a tile as read back in pass 2 (reading a row that
was never written yields the junk row). -/
def snapRowOf (st : St) (v b : Nat) : SnapRow :=
  (st.snap v b).getD (fun _ => 0, fun _ _ => 0)

/-- Lines 126-152: when full-energy or frozen-soil physics is on, distribute
the snapshot moisture onto the thermal nodes; `ErrorFlag == ERROR` is fatal. -/
def distributeStep (E : Ext) (op : OptionsS) (sc : SoilCon) (v b : Nat)
    (st : St) : Except St St :=
  if op.FULL_ENERGY || op.FROZEN_SOIL then
    let en := st.energy v b
    let st1 := { st with trace := st.trace ++ [Event.distributeCall v b] }
    match E.distribute_node_moisture_properties st.nodeGrid en.T
        (snapRowOf st v b).1 sc op.Nnode op.Nlayer with
    | none => logFatal st1
    | some out =>
        .ok { st1 with
          energy := upd2 st1.energy v b
            { en with
              moist := out.1, ice := out.2.1,
              kappa_node := out.2.2.1, Cs_node := out.2.2.2 } }
  else .ok st

/-- Lines 154-183: the explicit-scheme stability check.  Evaluated only when
`FROZEN_SOIL && !QUICK_FLUX && !IMPLICIT`; computes
`dt_thresh = 0.5 * Cs_node[1] / kappa_node[1] * dz_node[1]^2` and emits the
(non-fatal) advisory when `dt > dt_thresh`. -/
def stabilityStep (op : OptionsS) (dt : ℚ) (sc : SoilCon) (v b : Nat)
    (st : St) : St :=
  if op.FROZEN_SOIL && !op.QUICK_FLUX && !op.IMPLICIT then
    let en := st.energy v b
    let dt_thresh : ℚ := 1/2 * en.Cs_node 1 / en.kappa_node 1 * (sc.dz_node 1)^2
    let st1 := { st with
      trace := st.trace ++
        [Event.stabCheck v b (en.Cs_node 1) (en.kappa_node 1) dt_thresh] }
    if dt_thresh < dt then logWarn st1 (Event.stabWarn v b) else st1
  else st

/-- Lines 185-195: write the snapshot moisture and ice back into the tile's
soil-column layers. -/
def writeBackStep (op : OptionsS) (v b : Nat) (st : St) : St :=
  let row := snapRowOf st v b
  let cl := st.cell v b
  { st with
    cell := upd2 st.cell v b
      { cl with
        layerMoist := fun l => if l < op.Nlayer then row.1 l else cl.layerMoist l,
        layerIce := fun l f =>
          if l < op.Nlayer ∧ f < op.Nfrost then row.2 l f else cl.layerIce l f },
    trace := st.trace ++ snapReadEvs op v b ++
      [Event.writeBack v b ((List.range op.Nlayer).map row.1)
        ((List.range op.Nlayer).map (fun l => (List.range op.Nfrost).map (row.2 l)))] }

/-- The quick-flux call site (lines 197-206): the estimator receives the
tile's layers, the soil parameters, and of the node temperature profile only
`T[0]` and `T[1]`. -/
def quickFluxInvocation (E : Ext) (sc : SoilCon) (cl : CellTile) (T : Nat → ℚ) :
    Option LayersOut :=
  E.estimate_layer_ice_content_quick_flux cl.layerMoist cl.layerIce sc (T 0) (T 1)

/-- Lines 196-230: run one of the two ice-content estimator variants on the
tile's (written-back) layers; `ErrorFlag == ERROR` is fatal. -/
def estimateStep (E : Ext) (op : OptionsS) (sc : SoilCon) (v b : Nat)
    (st : St) : Except St St :=
  if op.QUICK_FLUX then
    let cl := st.cell v b
    let en := st.energy v b
    let st1 := { st with trace := st.trace ++ [Event.quickFluxCall v b] }
    match quickFluxInvocation E sc cl en.T with
    | none => logFatal st1
    | some out =>
        .ok { st1 with
          cell := upd2 st1.cell v b
            { cl with layerMoist := out.1, layerIce := out.2 } }
  else
    let cl := st.cell v b
    let en := st.energy v b
    let st1 := { st with trace := st.trace ++ [Event.fullEstimateCall v b] }
    match E.estimate_layer_ice_content cl.layerMoist cl.layerIce
        st.nodeGrid.Zsum_node en.T sc op.Nnode op.Nlayer with
    | none => logFatal st1
    | some out =>
        .ok { st1 with
          cell := upd2 st1.cell v b
            { cl with layerMoist := out.1, layerIce := out.2 } }

/-- Lines 232-238: locate freezing/thawing fronts when the quick-flux
shortcut is not used and frozen-soil physics is active for the column. -/
def frontsStep (E : Ext) (op : OptionsS) (sc : SoilCon) (v b : Nat) (st : St) : St :=
  if !op.QUICK_FLUX && sc.FS_ACTIVE then
    let en := st.energy v b
    let out := E.find_0_degree_fronts st.nodeGrid.Zsum_node en.T op.Nnode
    { st with
      energy := upd2 st.energy v b { en with fdepth := out.1, tdepth := out.2 },
      trace := st.trace ++ [Event.frontsCall v b] }
  else st

/-- Pass-2 body for one selected tile (lines 111-238). -/
def tileBody2 (E : Ext) (op : OptionsS) (dt : ℚ) (sc : SoilCon) (v b : Nat)
    (st : St) : Except St St :=
  (distributeStep E op sc v b (latchStep E op sc st)).bind (fun st1 =>
    (estimateStep E op sc v b
        (writeBackStep op v b (stabilityStep op dt sc v b st1))).map
      (frontsStep E op sc v b))

/-- Pass 2 (lines 102-242): same tile loop; `FIRST_VEG` is reset to true on
entry (line 102); a fatal error short-circuits the remaining tiles. -/
def pass2 (E : Ext) (op : OptionsS) (dt : ℚ) (sc : SoilCon) (vc : VegCon)
    (st : St) : Except St St :=
  (List.range (vc.vegetat_type_num + 1)).foldl (fun a v =>
    if 0 < vc.Cv v then
      (List.range op.SNOW_BAND).foldl (fun a2 b =>
        if 0 < sc.AreaFract b then a2.bind (tileBody2 E op dt sc v b) else a2) a
    else a) (.ok { st with firstVeg := true })

/-- Initial state: caller-owned cell/energy structures and the soil-con node
grid; the scratch snapshot buffer starts unwritten and the trace empty. -/
def initSt (ng0 : NodeGrid) (cell0 : Nat → Nat → CellTile)
    (energy0 : Nat → Nat → EnergyTile) : St :=
  { cell := cell0, energy := energy0, nodeGrid := ng0,
    snap := fun _ _ => none, firstVeg := true, trace := [] }

/-- The whole routine `compute_derived_state_vars` (lines 36-243): pass 1
then pass 2. -/
def compute_derived_state_vars (E : Ext) (op : OptionsS) (dt : ℚ)
    (sc : SoilCon) (vc : VegCon) (ng0 : NodeGrid)
    (cell0 : Nat → Nat → CellTile) (energy0 : Nat → Nat → EnergyTile) :
    Except St St :=
  pass2 E op dt sc vc (pass1 E op sc vc (initSt ng0 cell0 energy0))

/-- The state carried by either outcome of the run. -/
def outSt : Except St St → St
  | .ok s => s
  | .error s => s

/-- The ordered list of tiles passing both positivity guards, as enumerated
by the two loops. -/
def selectedTiles (op : OptionsS) (sc : SoilCon) (vc : VegCon) :
    List (Nat × Nat) :=
  (List.range (vc.vegetat_type_num + 1)).flatMap (fun v =>
    if 0 < vc.Cv v then
      ((List.range op.SNOW_BAND).filter (fun b => decide (0 < sc.AreaFract b))).map
        (fun b => (v, b))
    else [])

/-- Follows the spec's words (TileSelector contract): the (veg, band) pairs
with veg inclusively up to `Nveg`, band below the band count, and strictly
positive combined weight (cover fraction times band area fraction), in
vegetation-index-major, band-index-minor order. -/
def specSelectedTiles (op : OptionsS) (sc : SoilCon) (vc : VegCon) :
    List (Nat × Nat) :=
  ((List.range (vc.vegetat_type_num + 1)).flatMap (fun v =>
      (List.range op.SNOW_BAND).map (fun b => (v, b)))).filter
    (fun t => decide (0 < vc.Cv t.1 * sc.AreaFract t.2))

/-! ### Structural lemmas: guarded loops as folds over the selected tiles -/

theorem upd2_self {α : Type} (f : Nat → Nat → α) (v b : Nat) (x : α) :
    upd2 f v b x v b = x := by
  simp [upd2]

theorem upd2_other {α : Type} (f : Nat → Nat → α) (v b : Nat) (x : α)
    {v2 b2 : Nat} (h : ¬(v2 = v ∧ b2 = b)) : upd2 f v b x v2 b2 = f v2 b2 := by
  simp only [upd2, if_neg h]

theorem foldl_guard_filter {α : Type} (f : Nat → α → α) (q : Nat → Prop)
    [DecidablePred q] :
    ∀ (l : List Nat) (a : α),
      l.foldl (fun a2 b => if q b then f b a2 else a2) a
        = (l.filter (fun b => decide (q b))).foldl (fun a2 b => f b a2) a := by
  intro l
  induction l with
  | nil => intro a; rfl
  | cons b bs ih =>
    intro a
    by_cases hq : q b
    · simp only [List.foldl_cons, if_pos hq, List.filter_cons,
        decide_eq_true_eq, hq, ite_true, ih]
    · simp only [List.foldl_cons, if_neg hq, List.filter_cons,
        decide_eq_true_eq, hq, ite_false, ih]

theorem nestedFold {α : Type} (f : Nat → Nat → α → α) (p : Nat → Prop)
    [DecidablePred p] (q : Nat → Prop) [DecidablePred q] (lb : List Nat) :
    ∀ (lv : List Nat) (a : α),
      lv.foldl (fun s v =>
          if p v then lb.foldl (fun s2 b => if q b then f v b s2 else s2) s else s) a
        = (lv.flatMap (fun v =>
            if p v then (lb.filter (fun b => decide (q b))).map (fun b => (v, b))
            else [])).foldl (fun s t => f t.1 t.2 s) a := by
  intro lv
  induction lv with
  | nil => intro a; rfl
  | cons v vs ih =>
    intro a
    by_cases hp : p v
    · simp only [List.foldl_cons, if_pos hp, List.flatMap_cons, List.foldl_append,
        ih, List.foldl_map]
      rw [foldl_guard_filter (fun b s2 => f v b s2) q lb a]
    · simp only [List.foldl_cons, if_neg hp, List.flatMap_cons, List.foldl_append, ih]
      rfl

/-- Pass 1 as a fold of the tile body over an explicit tile list. -/
def p1go (E : Ext) (op : OptionsS) (sc : SoilCon) (l : List (Nat × Nat))
    (st : St) : St :=
  l.foldl (fun s t => tileBody1 E op sc t.1 t.2 s) st

/-- Pass 2 as a fold of the tile body over an explicit tile list. -/
def p2go (E : Ext) (op : OptionsS) (dt : ℚ) (sc : SoilCon)
    (l : List (Nat × Nat)) (a : Except St St) : Except St St :=
  l.foldl (fun a2 t => a2.bind (tileBody2 E op dt sc t.1 t.2)) a

theorem pass1_eq (E : Ext) (op : OptionsS) (sc : SoilCon) (vc : VegCon)
    (st : St) :
    pass1 E op sc vc st = p1go E op sc (selectedTiles op sc vc) st := by
  unfold pass1 p1go selectedTiles
  exact nestedFold (fun v b s => tileBody1 E op sc v b s)
    (fun v => 0 < vc.Cv v) (fun b => 0 < sc.AreaFract b)
    (List.range op.SNOW_BAND) (List.range (vc.vegetat_type_num + 1)) st

theorem pass2_eq (E : Ext) (op : OptionsS) (dt : ℚ) (sc : SoilCon)
    (vc : VegCon) (st : St) :
    pass2 E op dt sc vc st
      = p2go E op dt sc (selectedTiles op sc vc) (.ok { st with firstVeg := true }) := by
  unfold pass2 p2go selectedTiles
  exact nestedFold (fun v b (a : Except St St) => a.bind (tileBody2 E op dt sc v b))
    (fun v => 0 < vc.Cv v) (fun b => 0 < sc.AreaFract b)
    (List.range op.SNOW_BAND) (List.range (vc.vegetat_type_num + 1))
    (.ok { st with firstVeg := true })

/-! ### Pass-1 characterization -/

theorem p1go_nil (E : Ext) (op : OptionsS) (sc : SoilCon) (st : St) :
    p1go E op sc [] st = st := rfl

theorem p1go_cons (E : Ext) (op : OptionsS) (sc : SoilCon) (t : Nat × Nat)
    (ts : List (Nat × Nat)) (st : St) :
    p1go E op sc (t :: ts) st = p1go E op sc ts (tileBody1 E op sc t.1 t.2 st) := rfl

theorem tileBody1_energy (E : Ext) (op : OptionsS) (sc : SoilCon) (v b : Nat)
    (st : St) : (tileBody1 E op sc v b st).energy = st.energy := rfl

theorem tileBody1_nodeGrid (E : Ext) (op : OptionsS) (sc : SoilCon) (v b : Nat)
    (st : St) : (tileBody1 E op sc v b st).nodeGrid = st.nodeGrid := rfl

theorem tileBody1_firstVeg (E : Ext) (op : OptionsS) (sc : SoilCon) (v b : Nat)
    (st : St) : (tileBody1 E op sc v b st).firstVeg = st.firstVeg := rfl

theorem tileBody1_trace (E : Ext) (op : OptionsS) (sc : SoilCon) (v b : Nat)
    (st : St) : (tileBody1 E op sc v b st).trace = st.trace ++ tileEv1 op v b := rfl

theorem tileBody1_snap_self (E : Ext) (op : OptionsS) (sc : SoilCon) (v b : Nat)
    (st : St) :
    (tileBody1 E op sc v b st).snap v b = some (capturedRow op (st.cell v b)) := by
  simp [tileBody1, upd2_self]

theorem tileBody1_snap_other (E : Ext) (op : OptionsS) (sc : SoilCon) (v b : Nat)
    (st : St) {v2 b2 : Nat} (h : ¬(v2 = v ∧ b2 = b)) :
    (tileBody1 E op sc v b st).snap v2 b2 = st.snap v2 b2 := by
  simp only [tileBody1]
  exact upd2_other _ _ _ _ h

theorem tileBody1_cell_other (E : Ext) (op : OptionsS) (sc : SoilCon) (v b : Nat)
    (st : St) {v2 b2 : Nat} (h : ¬(v2 = v ∧ b2 = b)) :
    (tileBody1 E op sc v b st).cell v2 b2 = st.cell v2 b2 := by
  simp only [tileBody1]
  exact upd2_other _ _ _ _ h

theorem tileBody1_layerMoist (E : Ext) (op : OptionsS) (sc : SoilCon) (v b : Nat)
    (st : St) (v2 b2 : Nat) :
    ((tileBody1 E op sc v b st).cell v2 b2).layerMoist
      = (st.cell v2 b2).layerMoist := by
  by_cases h : v2 = v ∧ b2 = b
  · obtain ⟨rfl, rfl⟩ := h
    simp [tileBody1, upd2_self]
  · rw [tileBody1_cell_other E op sc v b st h]

theorem tileBody1_layerIce (E : Ext) (op : OptionsS) (sc : SoilCon) (v b : Nat)
    (st : St) (v2 b2 : Nat) :
    ((tileBody1 E op sc v b st).cell v2 b2).layerIce
      = (st.cell v2 b2).layerIce := by
  by_cases h : v2 = v ∧ b2 = b
  · obtain ⟨rfl, rfl⟩ := h
    simp [tileBody1, upd2_self]
  · rw [tileBody1_cell_other E op sc v b st h]

theorem p1go_energy (E : Ext) (op : OptionsS) (sc : SoilCon)
    (l : List (Nat × Nat)) (st : St) : (p1go E op sc l st).energy = st.energy := by
  induction l generalizing st with
  | nil => rfl
  | cons t ts ih => rw [p1go_cons, ih, tileBody1_energy]

theorem p1go_nodeGrid (E : Ext) (op : OptionsS) (sc : SoilCon)
    (l : List (Nat × Nat)) (st : St) :
    (p1go E op sc l st).nodeGrid = st.nodeGrid := by
  induction l generalizing st with
  | nil => rfl
  | cons t ts ih => rw [p1go_cons, ih, tileBody1_nodeGrid]

theorem p1go_firstVeg (E : Ext) (op : OptionsS) (sc : SoilCon)
    (l : List (Nat × Nat)) (st : St) :
    (p1go E op sc l st).firstVeg = st.firstVeg := by
  induction l generalizing st with
  | nil => rfl
  | cons t ts ih => rw [p1go_cons, ih, tileBody1_firstVeg]

theorem p1go_trace (E : Ext) (op : OptionsS) (sc : SoilCon)
    (l : List (Nat × Nat)) (st : St) :
    (p1go E op sc l st).trace
      = st.trace ++ l.flatMap (fun t => tileEv1 op t.1 t.2) := by
  induction l generalizing st with
  | nil => simp [p1go_nil]
  | cons t ts ih =>
    rw [p1go_cons, ih, tileBody1_trace, List.flatMap_cons, List.append_assoc]

theorem p1go_layerMoist (E : Ext) (op : OptionsS) (sc : SoilCon)
    (l : List (Nat × Nat)) (st : St) (v2 b2 : Nat) :
    ((p1go E op sc l st).cell v2 b2).layerMoist
      = (st.cell v2 b2).layerMoist := by
  induction l generalizing st with
  | nil => rfl
  | cons t ts ih =>
    rw [p1go_cons, ih, tileBody1_layerMoist]

theorem p1go_layerIce (E : Ext) (op : OptionsS) (sc : SoilCon)
    (l : List (Nat × Nat)) (st : St) (v2 b2 : Nat) :
    ((p1go E op sc l st).cell v2 b2).layerIce
      = (st.cell v2 b2).layerIce := by
  induction l generalizing st with
  | nil => rfl
  | cons t ts ih =>
    rw [p1go_cons, ih, tileBody1_layerIce]

theorem p1go_cell_notMem (E : Ext) (op : OptionsS) (sc : SoilCon)
    (l : List (Nat × Nat)) (st : St) {v2 b2 : Nat} (h : (v2, b2) ∉ l) :
    (p1go E op sc l st).cell v2 b2 = st.cell v2 b2 := by
  induction l generalizing st with
  | nil => rfl
  | cons t ts ih =>
    have hne : ¬(v2 = t.1 ∧ b2 = t.2) := by
      rintro ⟨rfl, rfl⟩
      exact h (List.mem_cons_self _ _)
    rw [p1go_cons, ih _ (fun hm => h (List.mem_cons_of_mem _ hm)),
      tileBody1_cell_other E op sc t.1 t.2 st hne]

theorem p1go_snap_notMem (E : Ext) (op : OptionsS) (sc : SoilCon)
    (l : List (Nat × Nat)) (st : St) {v2 b2 : Nat} (h : (v2, b2) ∉ l) :
    (p1go E op sc l st).snap v2 b2 = st.snap v2 b2 := by
  induction l generalizing st with
  | nil => rfl
  | cons t ts ih =>
    have hne : ¬(v2 = t.1 ∧ b2 = t.2) := by
      rintro ⟨rfl, rfl⟩
      exact h (List.mem_cons_self _ _)
    rw [p1go_cons, ih _ (fun hm => h (List.mem_cons_of_mem _ hm)),
      tileBody1_snap_other E op sc t.1 t.2 st hne]

/-- The captured snapshot row of a tile depends only on the tile's layer
fields. -/
theorem capturedRow_layers (op : OptionsS) (cl cl2 : CellTile)
    (hm : cl2.layerMoist = cl.layerMoist) (hi : cl2.layerIce = cl.layerIce) :
    capturedRow op cl2 = capturedRow op cl := by
  simp [capturedRow, hm, hi]

theorem p1go_snap_mem (E : Ext) (op : OptionsS) (sc : SoilCon)
    (l : List (Nat × Nat)) (st : St) {v2 b2 : Nat} (h : (v2, b2) ∈ l) :
    (p1go E op sc l st).snap v2 b2 = some (capturedRow op (st.cell v2 b2)) := by
  induction l generalizing st with
  | nil => exact absurd h (List.not_mem_nil _)
  | cons t ts ih =>
    by_cases hmem : (v2, b2) ∈ ts
    · rw [p1go_cons, ih _ hmem]
      congr 1
      exact capturedRow_layers op _ _
        (tileBody1_layerMoist E op sc t.1 t.2 st v2 b2)
        (tileBody1_layerIce E op sc t.1 t.2 st v2 b2)
    · have ht : t = (v2, b2) := by
        rcases List.mem_cons.mp h with h1 | h2
        · exact h1.symm
        · exact absurd h2 hmem
      subst ht
      rw [p1go_cons, p1go_snap_notMem E op sc ts _ hmem]
      exact tileBody1_snap_self E op sc v2 b2 st

/-! ### Pass-2 characterization -/

/-- Total success of the delegated computations: none of the fallible
collaborators ever reports a property-derivation error. -/
def extOk (E : Ext) : Prop :=
  (∀ g T row sc nn nl,
      (E.distribute_node_moisture_properties g T row sc nn nl).isSome = true) ∧
  (∀ m i sc t0 t1,
      (E.estimate_layer_ice_content_quick_flux m i sc t0 t1).isSome = true) ∧
  (∀ m i z T sc nn nl,
      (E.estimate_layer_ice_content m i z T sc nn nl).isSome = true)

/-- The node grid in effect after the `FIRST_VEG` latch has run on `st`. -/
def latchGrid (E : Ext) (op : OptionsS) (sc : SoilCon) (st : St) : NodeGrid :=
  if st.firstVeg then E.set_node_parameters st.nodeGrid sc op.Nnode op.Nlayer
  else st.nodeGrid

/-- The `distribute_node_moisture_properties` result for given node grid,
node temperatures and snapshot moisture row. -/
def nodeOutAt (E : Ext) (op : OptionsS) (sc : SoilCon) (g : NodeGrid)
    (T row : Nat → ℚ) : Option NodeOut :=
  E.distribute_node_moisture_properties g T row sc op.Nnode op.Nlayer

/-- Node-1 heat capacity as it stands at the stability check (written by
`distribute_node_moisture_properties`). -/
def cs1At (E : Ext) (op : OptionsS) (sc : SoilCon) (g : NodeGrid)
    (T row : Nat → ℚ) : ℚ :=
  match nodeOutAt E op sc g T row with
  | some o => o.2.2.2 1
  | none => 0

/-- Node-1 thermal conductivity as it stands at the stability check. -/
def kp1At (E : Ext) (op : OptionsS) (sc : SoilCon) (g : NodeGrid)
    (T row : Nat → ℚ) : ℚ :=
  match nodeOutAt E op sc g T row with
  | some o => o.2.2.1 1
  | none => 0

/-- The stability threshold `dt_thresh` of a tile:
one-half times node-1 heat capacity over node-1 conductivity, times the
square of the node-1 spacing. -/
def threshAt (E : Ext) (op : OptionsS) (sc : SoilCon) (g : NodeGrid)
    (T row : Nat → ℚ) : ℚ :=
  1/2 * cs1At E op sc g T row / kp1At E op sc g T row * (sc.dz_node 1)^2

/-- Events of the node-moisture distribution call of one tile. -/
def distEvs (op : OptionsS) (v b : Nat) : List Event :=
  if op.FULL_ENERGY || op.FROZEN_SOIL then [Event.distributeCall v b] else []

/-- Events of the stability check of one tile, given the node-1 heat
capacity, conductivity and threshold in effect there. -/
def stabEvs (op : OptionsS) (dt : ℚ) (v b : Nat) (c k th : ℚ) : List Event :=
  if op.FROZEN_SOIL && !op.QUICK_FLUX && !op.IMPLICIT then
    Event.stabCheck v b c k th :: (if th < dt then [Event.stabWarn v b] else [])
  else []

/-- Event of the ice-content estimator variant selected for the run. -/
def estEvs (op : OptionsS) (v b : Nat) : List Event :=
  if op.QUICK_FLUX then [Event.quickFluxCall v b] else [Event.fullEstimateCall v b]

/-- Events of the freeze/thaw front location of one tile. -/
def frontsEvs (op : OptionsS) (sc : SoilCon) (v b : Nat) : List Event :=
  if !op.QUICK_FLUX && sc.FS_ACTIVE then [Event.frontsCall v b] else []

/-- The full event list of one tile of pass 2 (when no error occurs), as a
function of the node grid `g` in effect, the tile's node temperatures `T`,
its snapshot row, and whether the tile is the first selected one. -/
def tileEv2 (E : Ext) (op : OptionsS) (dt : ℚ) (sc : SoilCon) (g : NodeGrid)
    (T rowM : Nat → ℚ) (rowI : Nat → Nat → ℚ) (first : Bool) (v b : Nat) :
    List Event :=
  (if first then [Event.setNodeParams] else []) ++
  distEvs op v b ++
  stabEvs op dt v b (cs1At E op sc g T rowM) (kp1At E op sc g T rowM)
    (threshAt E op sc g T rowM) ++
  snapReadEvs op v b ++
  [Event.writeBack v b ((List.range op.Nlayer).map rowM)
    ((List.range op.Nlayer).map (fun l => (List.range op.Nfrost).map (rowI l)))] ++
  estEvs op v b ++
  frontsEvs op sc v b

/-- The event lists of a list of pass-2 tiles. -/
def tileEvs2 (E : Ext) (op : OptionsS) (dt : ℚ) (sc : SoilCon) (g : NodeGrid)
    (rowF : Nat × Nat → SnapRow) (TF : Nat × Nat → Nat → ℚ) :
    Bool → List (Nat × Nat) → List Event
  | _, [] => []
  | first, t :: ts =>
      tileEv2 E op dt sc g (TF t) (rowF t).1 (rowF t).2 first t.1 t.2 ++
        tileEvs2 E op dt sc g rowF TF false ts

theorem latchStep_cell (E : Ext) (op : OptionsS) (sc : SoilCon) (st : St) :
    (latchStep E op sc st).cell = st.cell := by
  by_cases h : st.firstVeg <;> simp [latchStep, h]

theorem latchStep_energy (E : Ext) (op : OptionsS) (sc : SoilCon) (st : St) :
    (latchStep E op sc st).energy = st.energy := by
  by_cases h : st.firstVeg <;> simp [latchStep, h]

theorem latchStep_snap (E : Ext) (op : OptionsS) (sc : SoilCon) (st : St) :
    (latchStep E op sc st).snap = st.snap := by
  by_cases h : st.firstVeg <;> simp [latchStep, h]

theorem latchStep_firstVeg (E : Ext) (op : OptionsS) (sc : SoilCon) (st : St) :
    (latchStep E op sc st).firstVeg = false := by
  by_cases h : st.firstVeg <;> simp [latchStep, h]

theorem latchStep_nodeGrid (E : Ext) (op : OptionsS) (sc : SoilCon) (st : St) :
    (latchStep E op sc st).nodeGrid = latchGrid E op sc st := by
  by_cases h : st.firstVeg <;> simp [latchStep, latchGrid, h]

theorem latchStep_trace (E : Ext) (op : OptionsS) (sc : SoilCon) (st : St) :
    (latchStep E op sc st).trace
      = st.trace ++ (if st.firstVeg then [Event.setNodeParams] else []) := by
  by_cases h : st.firstVeg <;> simp [latchStep, h]

theorem distributeStep_snap (E : Ext) (op : OptionsS) (sc : SoilCon) (v b : Nat)
    (st : St) : (outSt (distributeStep E op sc v b st)).snap = st.snap := by
  by_cases h : op.FULL_ENERGY || op.FROZEN_SOIL
  · cases hE : E.distribute_node_moisture_properties st.nodeGrid (st.energy v b).T
      (snapRowOf st v b).1 sc op.Nnode op.Nlayer <;>
      simp [distributeStep, h, hE, outSt, logFatal]
  · simp [distributeStep, h, outSt]

theorem distributeStep_cell (E : Ext) (op : OptionsS) (sc : SoilCon) (v b : Nat)
    (st : St) : (outSt (distributeStep E op sc v b st)).cell = st.cell := by
  by_cases h : op.FULL_ENERGY || op.FROZEN_SOIL
  · cases hE : E.distribute_node_moisture_properties st.nodeGrid (st.energy v b).T
      (snapRowOf st v b).1 sc op.Nnode op.Nlayer <;>
      simp [distributeStep, h, hE, outSt, logFatal]
  · simp [distributeStep, h, outSt]

theorem distributeStep_nodeGrid (E : Ext) (op : OptionsS) (sc : SoilCon)
    (v b : Nat) (st : St) :
    (outSt (distributeStep E op sc v b st)).nodeGrid = st.nodeGrid := by
  by_cases h : op.FULL_ENERGY || op.FROZEN_SOIL
  · cases hE : E.distribute_node_moisture_properties st.nodeGrid (st.energy v b).T
      (snapRowOf st v b).1 sc op.Nnode op.Nlayer <;>
      simp [distributeStep, h, hE, outSt, logFatal]
  · simp [distributeStep, h, outSt]

theorem distributeStep_firstVeg (E : Ext) (op : OptionsS) (sc : SoilCon)
    (v b : Nat) (st : St) :
    (outSt (distributeStep E op sc v b st)).firstVeg = st.firstVeg := by
  by_cases h : op.FULL_ENERGY || op.FROZEN_SOIL
  · cases hE : E.distribute_node_moisture_properties st.nodeGrid (st.energy v b).T
      (snapRowOf st v b).1 sc op.Nnode op.Nlayer <;>
      simp [distributeStep, h, hE, outSt, logFatal]
  · simp [distributeStep, h, outSt]

theorem distributeStep_trace (E : Ext) (op : OptionsS) (sc : SoilCon)
    (v b : Nat) (st : St) :
    (outSt (distributeStep E op sc v b st)).trace
      = st.trace ++ distEvs op v b := by
  by_cases h : op.FULL_ENERGY || op.FROZEN_SOIL
  · cases hE : E.distribute_node_moisture_properties st.nodeGrid (st.energy v b).T
      (snapRowOf st v b).1 sc op.Nnode op.Nlayer <;>
      simp [distributeStep, h, hE, outSt, logFatal, distEvs]
  · simp [distributeStep, h, outSt, distEvs]

theorem distributeStep_energy_other (E : Ext) (op : OptionsS) (sc : SoilCon)
    (v b : Nat) (st : St) {v2 b2 : Nat} (h2 : ¬(v2 = v ∧ b2 = b)) :
    (outSt (distributeStep E op sc v b st)).energy v2 b2 = st.energy v2 b2 := by
  by_cases h : op.FULL_ENERGY || op.FROZEN_SOIL
  · cases hE : E.distribute_node_moisture_properties st.nodeGrid (st.energy v b).T
      (snapRowOf st v b).1 sc op.Nnode op.Nlayer <;>
      simp [distributeStep, h, hE, outSt, logFatal, upd2_other _ _ _ _ h2]
  · simp [distributeStep, h, outSt]

theorem distributeStep_T (E : Ext) (op : OptionsS) (sc : SoilCon)
    (v b : Nat) (st : St) (v2 b2 : Nat) :
    ((outSt (distributeStep E op sc v b st)).energy v2 b2).T
      = (st.energy v2 b2).T := by
  by_cases hvb : v2 = v ∧ b2 = b
  · obtain ⟨rfl, rfl⟩ := hvb
    by_cases h : op.FULL_ENERGY || op.FROZEN_SOIL
    · cases hE : E.distribute_node_moisture_properties st.nodeGrid
        (st.energy v2 b2).T (snapRowOf st v2 b2).1 sc op.Nnode op.Nlayer <;>
        simp [distributeStep, h, hE, outSt, logFatal, upd2_self]
    · simp [distributeStep, h, outSt]
  · rw [distributeStep_energy_other E op sc v b st hvb]

theorem distributeStep_isOk (E : Ext) (op : OptionsS) (sc : SoilCon)
    (v b : Nat) (st : St) (hok : extOk E) :
    ∃ st2, distributeStep E op sc v b st = .ok st2 := by
  by_cases h : (op.FULL_ENERGY || op.FROZEN_SOIL) = true
  · obtain ⟨out, hE⟩ := Option.isSome_iff_exists.mp
      (hok.1 st.nodeGrid (st.energy v b).T (snapRowOf st v b).1 sc op.Nnode op.Nlayer)
    exact ⟨_, by simp only [distributeStep]; rw [if_pos h, hE]⟩
  · exact ⟨st, by simp only [distributeStep]; rw [if_neg h]⟩

theorem distributeStep_energy_some (E : Ext) (op : OptionsS) (sc : SoilCon)
    (v b : Nat) (st : St) (out : NodeOut)
    (h : (op.FULL_ENERGY || op.FROZEN_SOIL) = true)
    (hE : E.distribute_node_moisture_properties st.nodeGrid (st.energy v b).T
      (snapRowOf st v b).1 sc op.Nnode op.Nlayer = some out) :
    (outSt (distributeStep E op sc v b st)).energy v b
      = { st.energy v b with
          moist := out.1, ice := out.2.1,
          kappa_node := out.2.2.1, Cs_node := out.2.2.2 } := by
  simp [distributeStep, h, hE, outSt, upd2_self]

theorem stabilityStep_cell (op : OptionsS) (dt : ℚ) (sc : SoilCon) (v b : Nat)
    (st : St) : (stabilityStep op dt sc v b st).cell = st.cell := by
  unfold stabilityStep logWarn
  split
  · dsimp only
    split <;> rfl
  · rfl

theorem stabilityStep_energy (op : OptionsS) (dt : ℚ) (sc : SoilCon) (v b : Nat)
    (st : St) : (stabilityStep op dt sc v b st).energy = st.energy := by
  unfold stabilityStep logWarn
  split
  · dsimp only
    split <;> rfl
  · rfl

theorem stabilityStep_snap (op : OptionsS) (dt : ℚ) (sc : SoilCon) (v b : Nat)
    (st : St) : (stabilityStep op dt sc v b st).snap = st.snap := by
  unfold stabilityStep logWarn
  split
  · dsimp only
    split <;> rfl
  · rfl

theorem stabilityStep_nodeGrid (op : OptionsS) (dt : ℚ) (sc : SoilCon)
    (v b : Nat) (st : St) :
    (stabilityStep op dt sc v b st).nodeGrid = st.nodeGrid := by
  unfold stabilityStep logWarn
  split
  · dsimp only
    split <;> rfl
  · rfl

theorem stabilityStep_firstVeg (op : OptionsS) (dt : ℚ) (sc : SoilCon)
    (v b : Nat) (st : St) :
    (stabilityStep op dt sc v b st).firstVeg = st.firstVeg := by
  unfold stabilityStep logWarn
  split
  · dsimp only
    split <;> rfl
  · rfl

theorem stabilityStep_trace (op : OptionsS) (dt : ℚ) (sc : SoilCon) (v b : Nat)
    (st : St) :
    (stabilityStep op dt sc v b st).trace
      = st.trace ++
        stabEvs op dt v b ((st.energy v b).Cs_node 1) ((st.energy v b).kappa_node 1)
          (1/2 * (st.energy v b).Cs_node 1 / (st.energy v b).kappa_node 1 *
            (sc.dz_node 1)^2) := by
  unfold stabilityStep logWarn
  split
  · rename_i hc
    dsimp only
    simp only [stabEvs]
    rw [if_pos hc]
    split
    · simp
    · simp
  · rename_i hc
    simp only [stabEvs]
    rw [if_neg hc]
    simp

theorem writeBackStep_energy (op : OptionsS) (v b : Nat) (st : St) :
    (writeBackStep op v b st).energy = st.energy := rfl

theorem writeBackStep_snap (op : OptionsS) (v b : Nat) (st : St) :
    (writeBackStep op v b st).snap = st.snap := rfl

theorem writeBackStep_nodeGrid (op : OptionsS) (v b : Nat) (st : St) :
    (writeBackStep op v b st).nodeGrid = st.nodeGrid := rfl

theorem writeBackStep_firstVeg (op : OptionsS) (v b : Nat) (st : St) :
    (writeBackStep op v b st).firstVeg = st.firstVeg := rfl

theorem writeBackStep_trace (op : OptionsS) (v b : Nat) (st : St) :
    (writeBackStep op v b st).trace
      = st.trace ++ snapReadEvs op v b ++
        [Event.writeBack v b ((List.range op.Nlayer).map (snapRowOf st v b).1)
          ((List.range op.Nlayer).map
            (fun l => (List.range op.Nfrost).map ((snapRowOf st v b).2 l)))] := rfl

theorem writeBackStep_cell_other (op : OptionsS) (v b : Nat) (st : St)
    {v2 b2 : Nat} (h2 : ¬(v2 = v ∧ b2 = b)) :
    (writeBackStep op v b st).cell v2 b2 = st.cell v2 b2 := by
  simp only [writeBackStep]
  exact upd2_other _ _ _ _ h2

theorem estimateStep_energy (E : Ext) (op : OptionsS) (sc : SoilCon)
    (v b : Nat) (st : St) :
    (outSt (estimateStep E op sc v b st)).energy = st.energy := by
  by_cases h : op.QUICK_FLUX
  · cases hE : quickFluxInvocation E sc (st.cell v b) (st.energy v b).T <;>
      simp [estimateStep, h, hE, outSt, logFatal]
  · cases hE : E.estimate_layer_ice_content (st.cell v b).layerMoist
      (st.cell v b).layerIce st.nodeGrid.Zsum_node (st.energy v b).T sc
      op.Nnode op.Nlayer <;>
      simp [estimateStep, h, hE, outSt, logFatal]

theorem estimateStep_snap (E : Ext) (op : OptionsS) (sc : SoilCon)
    (v b : Nat) (st : St) :
    (outSt (estimateStep E op sc v b st)).snap = st.snap := by
  by_cases h : op.QUICK_FLUX
  · cases hE : quickFluxInvocation E sc (st.cell v b) (st.energy v b).T <;>
      simp [estimateStep, h, hE, outSt, logFatal]
  · cases hE : E.estimate_layer_ice_content (st.cell v b).layerMoist
      (st.cell v b).layerIce st.nodeGrid.Zsum_node (st.energy v b).T sc
      op.Nnode op.Nlayer <;>
      simp [estimateStep, h, hE, outSt, logFatal]

theorem estimateStep_nodeGrid (E : Ext) (op : OptionsS) (sc : SoilCon)
    (v b : Nat) (st : St) :
    (outSt (estimateStep E op sc v b st)).nodeGrid = st.nodeGrid := by
  by_cases h : op.QUICK_FLUX
  · cases hE : quickFluxInvocation E sc (st.cell v b) (st.energy v b).T <;>
      simp [estimateStep, h, hE, outSt, logFatal]
  · cases hE : E.estimate_layer_ice_content (st.cell v b).layerMoist
      (st.cell v b).layerIce st.nodeGrid.Zsum_node (st.energy v b).T sc
      op.Nnode op.Nlayer <;>
      simp [estimateStep, h, hE, outSt, logFatal]

theorem estimateStep_firstVeg (E : Ext) (op : OptionsS) (sc : SoilCon)
    (v b : Nat) (st : St) :
    (outSt (estimateStep E op sc v b st)).firstVeg = st.firstVeg := by
  by_cases h : op.QUICK_FLUX
  · cases hE : quickFluxInvocation E sc (st.cell v b) (st.energy v b).T <;>
      simp [estimateStep, h, hE, outSt, logFatal]
  · cases hE : E.estimate_layer_ice_content (st.cell v b).layerMoist
      (st.cell v b).layerIce st.nodeGrid.Zsum_node (st.energy v b).T sc
      op.Nnode op.Nlayer <;>
      simp [estimateStep, h, hE, outSt, logFatal]

theorem estimateStep_trace (E : Ext) (op : OptionsS) (sc : SoilCon)
    (v b : Nat) (st : St) :
    (outSt (estimateStep E op sc v b st)).trace = st.trace ++ estEvs op v b := by
  by_cases h : op.QUICK_FLUX
  · cases hE : quickFluxInvocation E sc (st.cell v b) (st.energy v b).T <;>
      simp [estimateStep, h, hE, outSt, logFatal, estEvs]
  · cases hE : E.estimate_layer_ice_content (st.cell v b).layerMoist
      (st.cell v b).layerIce st.nodeGrid.Zsum_node (st.energy v b).T sc
      op.Nnode op.Nlayer <;>
      simp [estimateStep, h, hE, outSt, logFatal, estEvs]

theorem estimateStep_cell_other (E : Ext) (op : OptionsS) (sc : SoilCon)
    (v b : Nat) (st : St) {v2 b2 : Nat} (h2 : ¬(v2 = v ∧ b2 = b)) :
    (outSt (estimateStep E op sc v b st)).cell v2 b2 = st.cell v2 b2 := by
  by_cases h : op.QUICK_FLUX
  · cases hE : quickFluxInvocation E sc (st.cell v b) (st.energy v b).T <;>
      simp [estimateStep, h, hE, outSt, logFatal, upd2_other _ _ _ _ h2]
  · cases hE : E.estimate_layer_ice_content (st.cell v b).layerMoist
      (st.cell v b).layerIce st.nodeGrid.Zsum_node (st.energy v b).T sc
      op.Nnode op.Nlayer <;>
      simp [estimateStep, h, hE, outSt, logFatal, upd2_other _ _ _ _ h2]

theorem estimateStep_isOk (E : Ext) (op : OptionsS) (sc : SoilCon)
    (v b : Nat) (st : St) (hok : extOk E) :
    ∃ st2, estimateStep E op sc v b st = .ok st2 := by
  by_cases h : op.QUICK_FLUX = true
  · obtain ⟨out, hE⟩ := Option.isSome_iff_exists.mp
      (hok.2.1 (st.cell v b).layerMoist (st.cell v b).layerIce sc
        ((st.energy v b).T 0) ((st.energy v b).T 1))
    exact ⟨_, by simp only [estimateStep, quickFluxInvocation]; rw [if_pos h, hE]⟩
  · obtain ⟨out, hE⟩ := Option.isSome_iff_exists.mp
      (hok.2.2 (st.cell v b).layerMoist (st.cell v b).layerIce
        st.nodeGrid.Zsum_node (st.energy v b).T sc op.Nnode op.Nlayer)
    exact ⟨_, by simp only [estimateStep]; rw [if_neg h, hE]⟩

theorem frontsStep_cell (E : Ext) (op : OptionsS) (sc : SoilCon) (v b : Nat)
    (st : St) : (frontsStep E op sc v b st).cell = st.cell := by
  by_cases h : !op.QUICK_FLUX && sc.FS_ACTIVE <;> simp [frontsStep, h]

theorem frontsStep_snap (E : Ext) (op : OptionsS) (sc : SoilCon) (v b : Nat)
    (st : St) : (frontsStep E op sc v b st).snap = st.snap := by
  by_cases h : !op.QUICK_FLUX && sc.FS_ACTIVE <;> simp [frontsStep, h]

theorem frontsStep_nodeGrid (E : Ext) (op : OptionsS) (sc : SoilCon) (v b : Nat)
    (st : St) : (frontsStep E op sc v b st).nodeGrid = st.nodeGrid := by
  by_cases h : !op.QUICK_FLUX && sc.FS_ACTIVE <;> simp [frontsStep, h]

theorem frontsStep_firstVeg (E : Ext) (op : OptionsS) (sc : SoilCon) (v b : Nat)
    (st : St) : (frontsStep E op sc v b st).firstVeg = st.firstVeg := by
  by_cases h : !op.QUICK_FLUX && sc.FS_ACTIVE <;> simp [frontsStep, h]

theorem frontsStep_trace (E : Ext) (op : OptionsS) (sc : SoilCon) (v b : Nat)
    (st : St) :
    (frontsStep E op sc v b st).trace = st.trace ++ frontsEvs op sc v b := by
  by_cases h : !op.QUICK_FLUX && sc.FS_ACTIVE <;> simp [frontsStep, h, frontsEvs]

theorem frontsStep_energy_other (E : Ext) (op : OptionsS) (sc : SoilCon)
    (v b : Nat) (st : St) {v2 b2 : Nat} (h2 : ¬(v2 = v ∧ b2 = b)) :
    (frontsStep E op sc v b st).energy v2 b2 = st.energy v2 b2 := by
  by_cases h : !op.QUICK_FLUX && sc.FS_ACTIVE
  · simp [frontsStep, h, upd2_other _ _ _ _ h2]
  · simp [frontsStep, h]

theorem frontsStep_T (E : Ext) (op : OptionsS) (sc : SoilCon) (v b : Nat)
    (st : St) (v2 b2 : Nat) :
    ((frontsStep E op sc v b st).energy v2 b2).T = (st.energy v2 b2).T := by
  by_cases hvb : v2 = v ∧ b2 = b
  · obtain ⟨rfl, rfl⟩ := hvb
    by_cases h : !op.QUICK_FLUX && sc.FS_ACTIVE
    · simp [frontsStep, h, upd2_self]
    · simp [frontsStep, h]
  · rw [frontsStep_energy_other E op sc v b st hvb]

theorem snapRowOf_eq (st : St) (v b : Nat) (row : SnapRow)
    (h : st.snap v b = some row) : snapRowOf st v b = row := by
  simp [snapRowOf, h]

/-- One pass-2 tile body, on a state whose snapshot row for the tile is
written: it succeeds (given `extOk`), appends exactly the tile's events,
latches the node grid, preserves the snapshot buffer and the other tiles'
cell/energy state, and never writes node temperatures. -/
theorem tileBody2_ok (E : Ext) (op : OptionsS) (dt : ℚ) (sc : SoilCon)
    (v b : Nat) (st : St) (hok : extOk E) (row : SnapRow)
    (hsnap : st.snap v b = some row) :
    ∃ st', tileBody2 E op dt sc v b st = .ok st' ∧
      st'.trace = st.trace ++
        tileEv2 E op dt sc (latchGrid E op sc st) ((st.energy v b).T) row.1 row.2
          st.firstVeg v b ∧
      st'.firstVeg = false ∧
      st'.nodeGrid = latchGrid E op sc st ∧
      st'.snap = st.snap ∧
      (∀ v2 b2, ¬(v2 = v ∧ b2 = b) →
        st'.cell v2 b2 = st.cell v2 b2 ∧ st'.energy v2 b2 = st.energy v2 b2) ∧
      (∀ v2 b2, (st'.energy v2 b2).T = (st.energy v2 b2).T) := by
  obtain ⟨stD, hD⟩ := distributeStep_isOk E op sc v b (latchStep E op sc st) hok
  have hDc := distributeStep_cell E op sc v b (latchStep E op sc st)
  have hDg := distributeStep_nodeGrid E op sc v b (latchStep E op sc st)
  have hDs := distributeStep_snap E op sc v b (latchStep E op sc st)
  have hDf := distributeStep_firstVeg E op sc v b (latchStep E op sc st)
  have hDt := distributeStep_trace E op sc v b (latchStep E op sc st)
  rw [hD] at hDc hDg hDs hDf hDt
  simp only [outSt] at hDc hDg hDs hDf hDt
  obtain ⟨stE, hEst⟩ := estimateStep_isOk E op sc v b
    (writeBackStep op v b (stabilityStep op dt sc v b stD)) hok
  have hEe := estimateStep_energy E op sc v b
    (writeBackStep op v b (stabilityStep op dt sc v b stD))
  have hEg := estimateStep_nodeGrid E op sc v b
    (writeBackStep op v b (stabilityStep op dt sc v b stD))
  have hEs := estimateStep_snap E op sc v b
    (writeBackStep op v b (stabilityStep op dt sc v b stD))
  have hEf := estimateStep_firstVeg E op sc v b
    (writeBackStep op v b (stabilityStep op dt sc v b stD))
  have hEt := estimateStep_trace E op sc v b
    (writeBackStep op v b (stabilityStep op dt sc v b stD))
  rw [hEst] at hEe hEg hEs hEf hEt
  simp only [outSt] at hEe hEg hEs hEf hEt
  have hrowS : snapRowOf (stabilityStep op dt sc v b stD) v b = row := by
    simp [snapRowOf, stabilityStep_snap, hDs, latchStep_snap, hsnap]
  have hstabEq : stabEvs op dt v b ((stD.energy v b).Cs_node 1)
      ((stD.energy v b).kappa_node 1)
      (1/2 * (stD.energy v b).Cs_node 1 / (stD.energy v b).kappa_node 1 *
        (sc.dz_node 1)^2)
    = stabEvs op dt v b
        (cs1At E op sc (latchGrid E op sc st) ((st.energy v b).T) row.1)
        (kp1At E op sc (latchGrid E op sc st) ((st.energy v b).T) row.1)
        (threshAt E op sc (latchGrid E op sc st) ((st.energy v b).T) row.1) := by
    by_cases hstab : (op.FROZEN_SOIL && !op.QUICK_FLUX && !op.IMPLICIT) = true
    · have hstab2 := hstab
      simp only [Bool.and_eq_true] at hstab2
      have hFS : op.FROZEN_SOIL = true := hstab2.1.1
      have hEflag : (op.FULL_ENERGY || op.FROZEN_SOIL) = true := by simp [hFS]
      obtain ⟨out, hEdist⟩ := Option.isSome_iff_exists.mp
        (hok.1 (latchStep E op sc st).nodeGrid
          ((latchStep E op sc st).energy v b).T
          (snapRowOf (latchStep E op sc st) v b).1 sc op.Nnode op.Nlayer)
      have hEn := distributeStep_energy_some E op sc v b (latchStep E op sc st)
        out hEflag hEdist
      rw [hD] at hEn
      simp only [outSt] at hEn
      have hrowL : snapRowOf (latchStep E op sc st) v b = row := by
        simp [snapRowOf, latchStep_snap, hsnap]
      rw [latchStep_nodeGrid, latchStep_energy, hrowL] at hEdist
      have hcs : cs1At E op sc (latchGrid E op sc st) ((st.energy v b).T) row.1
          = out.2.2.2 1 := by
        simp [cs1At, nodeOutAt, hEdist]
      have hkp : kp1At E op sc (latchGrid E op sc st) ((st.energy v b).T) row.1
          = out.2.2.1 1 := by
        simp [kp1At, nodeOutAt, hEdist]
      rw [hEn]
      simp only [threshAt, hcs, hkp]
    · simp [stabEvs, hstab]
  refine ⟨frontsStep E op sc v b stE, ?_, ?_, ?_, ?_, ?_, ?_, ?_⟩
  · unfold tileBody2
    rw [hD]
    simp only [Except.bind]
    rw [hEst]
    simp only [Except.map]
  · rw [frontsStep_trace, hEt, writeBackStep_trace, hrowS, stabilityStep_trace,
      hstabEq, hDt, latchStep_trace]
    simp only [tileEv2, List.append_assoc]
  · rw [frontsStep_firstVeg, hEf, writeBackStep_firstVeg, stabilityStep_firstVeg,
      hDf, latchStep_firstVeg]
  · rw [frontsStep_nodeGrid, hEg, writeBackStep_nodeGrid, stabilityStep_nodeGrid,
      hDg, latchStep_nodeGrid]
  · rw [frontsStep_snap, hEs, writeBackStep_snap, stabilityStep_snap, hDs,
      latchStep_snap]
  · intro v2 b2 h2
    constructor
    · have hco := estimateStep_cell_other E op sc v b
        (writeBackStep op v b (stabilityStep op dt sc v b stD)) h2
      rw [hEst] at hco
      simp only [outSt] at hco
      rw [frontsStep_cell, hco, writeBackStep_cell_other op v b _ h2,
        stabilityStep_cell, hDc, latchStep_cell]
    · have hdo := distributeStep_energy_other E op sc v b (latchStep E op sc st) h2
      rw [hD] at hdo
      simp only [outSt] at hdo
      rw [frontsStep_energy_other E op sc v b stE h2, hEe, writeBackStep_energy,
        stabilityStep_energy, hdo, latchStep_energy]
  · intro v2 b2
    have hdT := distributeStep_T E op sc v b (latchStep E op sc st) v2 b2
    rw [hD] at hdT
    simp only [outSt] at hdT
    rw [frontsStep_T, hEe, writeBackStep_energy, stabilityStep_energy, hdT,
      latchStep_energy]

theorem p2go_cons (E : Ext) (op : OptionsS) (dt : ℚ) (sc : SoilCon)
    (t : Nat × Nat) (ts : List (Nat × Nat)) (a : Except St St) :
    p2go E op dt sc (t :: ts) a
      = p2go E op dt sc ts (a.bind (tileBody2 E op dt sc t.1 t.2)) := rfl

theorem p2go_error (E : Ext) (op : OptionsS) (dt : ℚ) (sc : SoilCon)
    (l : List (Nat × Nat)) (s : St) :
    p2go E op dt sc l (.error s) = .error s := by
  induction l with
  | nil => rfl
  | cons t ts ih => rw [p2go_cons]; exact ih

/-- Pass-2 fold over a tile list, on a state with the latch already spent:
each tile appends its events; node grid, snapshot buffer, other tiles and
all node temperatures are untouched. -/
theorem p2go_ok (E : Ext) (op : OptionsS) (dt : ℚ) (sc : SoilCon)
    (hok : extOk E) (rowF : Nat × Nat → SnapRow) (TF : Nat × Nat → Nat → ℚ)
    (l : List (Nat × Nat)) :
    ∀ (st : St),
      st.firstVeg = false →
      (∀ t, t ∈ l → st.snap t.1 t.2 = some (rowF t)) →
      (∀ t, t ∈ l → (st.energy t.1 t.2).T = TF t) →
      ∃ st', p2go E op dt sc l (.ok st) = .ok st' ∧
        st'.trace = st.trace ++ tileEvs2 E op dt sc st.nodeGrid rowF TF false l ∧
        st'.nodeGrid = st.nodeGrid ∧
        st'.firstVeg = false ∧
        st'.snap = st.snap ∧
        (∀ v2 b2, (v2, b2) ∉ l →
          st'.cell v2 b2 = st.cell v2 b2 ∧ st'.energy v2 b2 = st.energy v2 b2) ∧
        (∀ v2 b2, (st'.energy v2 b2).T = (st.energy v2 b2).T) := by
  induction l with
  | nil =>
    intro st h1 _ _
    exact ⟨st, rfl, by simp [tileEvs2], rfl, h1, rfl,
      fun _ _ _ => ⟨rfl, rfl⟩, fun _ _ => rfl⟩
  | cons t ts ih =>
    intro st hfv hsnap hT
    obtain ⟨st1, hb, hbt, hbf, hbg, hbs, hbframe, hbT⟩ :=
      tileBody2_ok E op dt sc t.1 t.2 st hok (rowF t)
        (hsnap t (List.mem_cons_self t ts))
    have hlg : latchGrid E op sc st = st.nodeGrid := by simp [latchGrid, hfv]
    obtain ⟨st', hrun, ht', hg', hf', hs', hframe', hT'⟩ := ih st1 hbf
      (fun t' ht2 => by rw [hbs]; exact hsnap t' (List.mem_cons_of_mem _ ht2))
      (fun t' ht2 => by rw [hbT]; exact hT t' (List.mem_cons_of_mem _ ht2))
    refine ⟨st', ?_, ?_, ?_, hf', ?_, ?_, ?_⟩
    · rw [p2go_cons]
      show p2go E op dt sc ts (tileBody2 E op dt sc t.1 t.2 st) = .ok st'
      rw [hb]
      exact hrun
    · rw [ht', hbt, hbg, hlg, hfv, hT t (List.mem_cons_self t ts)]
      simp only [tileEvs2, List.append_assoc]
    · rw [hg', hbg, hlg]
    · rw [hs', hbs]
    · intro v2 b2 hmem
      have hne : ¬(v2 = t.1 ∧ b2 = t.2) := by
        rintro ⟨rfl, rfl⟩
        exact hmem (List.mem_cons_self _ _)
      obtain ⟨hc1, he1⟩ := hframe' v2 b2 (fun hm => hmem (List.mem_cons_of_mem _ hm))
      obtain ⟨hc2, he2⟩ := hbframe v2 b2 hne
      exact ⟨hc1.trans hc2, he1.trans he2⟩
    · intro v2 b2
      rw [hT' v2 b2, hbT v2 b2]

/-- Pass 2 on the whole selected-tile list: the latch fires on the first
selected tile (if any), producing the node grid shared by all tiles. -/
theorem pass2_spec (E : Ext) (op : OptionsS) (dt : ℚ) (sc : SoilCon)
    (vc : VegCon) (hok : extOk E) (st : St) (rowF : Nat × Nat → SnapRow)
    (TF : Nat × Nat → Nat → ℚ)
    (hsnap : ∀ t, t ∈ selectedTiles op sc vc → st.snap t.1 t.2 = some (rowF t))
    (hT : ∀ t, t ∈ selectedTiles op sc vc → (st.energy t.1 t.2).T = TF t) :
    ∃ st', pass2 E op dt sc vc st = .ok st' ∧
      st'.trace = st.trace ++
        tileEvs2 E op dt sc (E.set_node_parameters st.nodeGrid sc op.Nnode op.Nlayer)
          rowF TF true (selectedTiles op sc vc) ∧
      st'.nodeGrid = (if selectedTiles op sc vc = [] then st.nodeGrid
        else E.set_node_parameters st.nodeGrid sc op.Nnode op.Nlayer) ∧
      st'.snap = st.snap ∧
      (∀ v2 b2, (v2, b2) ∉ selectedTiles op sc vc →
        st'.cell v2 b2 = st.cell v2 b2 ∧ st'.energy v2 b2 = st.energy v2 b2) ∧
      (∀ v2 b2, (st'.energy v2 b2).T = (st.energy v2 b2).T) := by
  rw [pass2_eq]
  rcases hsel : selectedTiles op sc vc with _ | ⟨t, ts⟩
  · refine ⟨{ st with firstVeg := true }, rfl, ?_, ?_, rfl,
      fun _ _ _ => ⟨rfl, rfl⟩, fun _ _ => rfl⟩
    · simp [tileEvs2]
    · simp
  · rw [p2go_cons]
    have hsnap0 : ({ st with firstVeg := true } : St).snap t.1 t.2
        = some (rowF t) := hsnap t (by rw [hsel]; exact List.mem_cons_self t ts)
    obtain ⟨st1, hb, hbt, hbf, hbg, hbs, hbframe, hbT⟩ :=
      tileBody2_ok E op dt sc t.1 t.2 { st with firstVeg := true } hok (rowF t)
        hsnap0
    have hlg : latchGrid E op sc { st with firstVeg := true }
        = E.set_node_parameters st.nodeGrid sc op.Nnode op.Nlayer := by
      simp [latchGrid]
    obtain ⟨st', hrun, ht', hg', hf', hs', hframe', hT'⟩ :=
      p2go_ok E op dt sc hok rowF TF ts st1 hbf
        (fun t' ht2 => by
          rw [hbs]
          exact hsnap t' (by rw [hsel]; exact List.mem_cons_of_mem _ ht2))
        (fun t' ht2 => by
          rw [hbT]
          exact hT t' (by rw [hsel]; exact List.mem_cons_of_mem _ ht2))
    refine ⟨st', ?_, ?_, ?_, ?_, ?_, ?_⟩
    · show p2go E op dt sc ts
        (tileBody2 E op dt sc t.1 t.2 { st with firstVeg := true }) = .ok st'
      rw [hb]
      exact hrun
    · rw [ht', hbt, hbg, hlg,
        hT t (by rw [hsel]; exact List.mem_cons_self t ts)]
      simp only [tileEvs2, List.append_assoc]
    · rw [hg', hbg, hlg]
      simp
    · rw [hs', hbs]
    · intro v2 b2 hmem
      have hne : ¬(v2 = t.1 ∧ b2 = t.2) := by
        rintro ⟨rfl, rfl⟩
        exact hmem (List.mem_cons_self _ _)
      obtain ⟨hc1, he1⟩ := hframe' v2 b2 (fun hm => hmem (List.mem_cons_of_mem _ hm))
      obtain ⟨hc2, he2⟩ := hbframe v2 b2 hne
      exact ⟨hc1.trans hc2, he1.trans he2⟩
    · intro v2 b2
      rw [hT' v2 b2, hbT v2 b2]

/-- Whole-run specification when no collaborator reports an error: pass-1
events for every selected tile in order, then pass-2 events with the node
grid derived once from the initial soil state; unselected tiles and node
temperatures are untouched. -/
theorem run_spec (E : Ext) (op : OptionsS) (dt : ℚ) (sc : SoilCon)
    (vc : VegCon) (ng0 : NodeGrid) (cell0 : Nat → Nat → CellTile)
    (energy0 : Nat → Nat → EnergyTile) (hok : extOk E) :
    ∃ st', compute_derived_state_vars E op dt sc vc ng0 cell0 energy0 = .ok st' ∧
      st'.trace = (selectedTiles op sc vc).flatMap (fun t => tileEv1 op t.1 t.2) ++
        tileEvs2 E op dt sc (E.set_node_parameters ng0 sc op.Nnode op.Nlayer)
          (fun t => capturedRow op (cell0 t.1 t.2)) (fun t => (energy0 t.1 t.2).T)
          true (selectedTiles op sc vc) ∧
      st'.nodeGrid = (if selectedTiles op sc vc = [] then ng0
        else E.set_node_parameters ng0 sc op.Nnode op.Nlayer) ∧
      (∀ v2 b2, (v2, b2) ∈ selectedTiles op sc vc →
        st'.snap v2 b2 = some (capturedRow op (cell0 v2 b2))) ∧
      (∀ v2 b2, (v2, b2) ∉ selectedTiles op sc vc →
        st'.snap v2 b2 = none ∧
        st'.cell v2 b2 = cell0 v2 b2 ∧ st'.energy v2 b2 = energy0 v2 b2) ∧
      (∀ v2 b2, (st'.energy v2 b2).T = (energy0 v2 b2).T) := by
  unfold compute_derived_state_vars
  rw [pass1_eq]
  have hp1snap : ∀ t, t ∈ selectedTiles op sc vc →
      (p1go E op sc (selectedTiles op sc vc) (initSt ng0 cell0 energy0)).snap t.1 t.2
        = some (capturedRow op (cell0 t.1 t.2)) := by
    intro t ht
    have := @p1go_snap_mem E op sc (selectedTiles op sc vc)
      (initSt ng0 cell0 energy0) t.1 t.2 (by simpa using ht)
    simpa [initSt] using this
  have hp1T : ∀ t, t ∈ selectedTiles op sc vc →
      ((p1go E op sc (selectedTiles op sc vc) (initSt ng0 cell0 energy0)).energy
        t.1 t.2).T = (energy0 t.1 t.2).T := by
    intro t _
    rw [p1go_energy]
    rfl
  obtain ⟨st', hrun, ht', hg', hs', hframe', hT'⟩ :=
    pass2_spec E op dt sc vc hok
      (p1go E op sc (selectedTiles op sc vc) (initSt ng0 cell0 energy0))
      (fun t => capturedRow op (cell0 t.1 t.2)) (fun t => (energy0 t.1 t.2).T)
      hp1snap hp1T
  refine ⟨st', hrun, ?_, ?_, ?_, ?_, ?_⟩
  · rw [ht', p1go_trace, p1go_nodeGrid]
    simp [initSt]
  · rw [hg', p1go_nodeGrid]
    rfl
  · intro v2 b2 hmem
    rw [hs']
    exact hp1snap (v2, b2) hmem
  · intro v2 b2 hmem
    refine ⟨?_, ?_, ?_⟩
    · rw [hs', p1go_snap_notMem E op sc _ _ hmem]
      rfl
    · rw [(hframe' v2 b2 hmem).1, p1go_cell_notMem E op sc _ _ hmem]
      rfl
    · rw [(hframe' v2 b2 hmem).2, p1go_energy]
      rfl
  · intro v2 b2
    rw [hT' v2 b2, p1go_energy]
    rfl

/-! ### Any-outcome characterization (error cases included) -/

/-- What any event appended while processing pass-2 tile `(v, b)` can be:
a latch event, or an event tagged with this very tile; snapshot reads carry
in-range layer/frost indices, and the write-back carries exactly the
snapshot row `s` of the tile. -/
def tileEvPred (op : OptionsS) (s : Option SnapRow) (v b : Nat) : Event → Prop
  | .snapWriteM _ _ _ => False
  | .snapWriteI _ _ _ _ => False
  | .runoffAsat _ _ => False
  | .setNodeParams => True
  | .distributeCall v2 b2 => v2 = v ∧ b2 = b
  | .stabCheck v2 b2 _ _ _ => v2 = v ∧ b2 = b
  | .stabWarn v2 b2 => v2 = v ∧ b2 = b
  | .snapReadM v2 b2 l => v2 = v ∧ b2 = b ∧ l < op.Nlayer
  | .snapReadI v2 b2 l f => v2 = v ∧ b2 = b ∧ l < op.Nlayer ∧ f < op.Nfrost
  | .writeBack v2 b2 m i => v2 = v ∧ b2 = b ∧
      m = (List.range op.Nlayer).map ((s.getD (fun _ => 0, fun _ _ => 0)).1) ∧
      i = (List.range op.Nlayer).map
        (fun l => (List.range op.Nfrost).map ((s.getD (fun _ => 0, fun _ _ => 0)).2 l))
  | .quickFluxCall v2 b2 => v2 = v ∧ b2 = b
  | .fullEstimateCall v2 b2 => v2 = v ∧ b2 = b
  | .frontsCall v2 b2 => v2 = v ∧ b2 = b

theorem mem_ite_singleton {c : Prop} [Decidable c] {x e : Event}
    (h : e ∈ (if c then [x] else [])) : e = x := by
  by_cases hc : c
  · rw [if_pos hc] at h
    simpa using h
  · rw [if_neg hc] at h
    simp at h

theorem mem_distEvs {op : OptionsS} {v b : Nat} {e : Event}
    (h : e ∈ distEvs op v b) : e = Event.distributeCall v b := by
  unfold distEvs at h
  exact mem_ite_singleton h

theorem mem_stabEvs {op : OptionsS} {dt : ℚ} {v b : Nat} {c k th : ℚ} {e : Event}
    (h : e ∈ stabEvs op dt v b c k th) :
    e = Event.stabCheck v b c k th ∨ e = Event.stabWarn v b := by
  unfold stabEvs at h
  by_cases hc : (op.FROZEN_SOIL && !op.QUICK_FLUX && !op.IMPLICIT) = true
  · rw [if_pos hc] at h
    rcases List.mem_cons.mp h with h1 | h2
    · exact Or.inl h1
    · exact Or.inr (mem_ite_singleton h2)
  · rw [if_neg hc] at h
    simp at h

theorem mem_snapReadEvs {op : OptionsS} {v b : Nat} {e : Event}
    (h : e ∈ snapReadEvs op v b) :
    (∃ l, l < op.Nlayer ∧ e = Event.snapReadM v b l) ∨
    (∃ l f, l < op.Nlayer ∧ f < op.Nfrost ∧ e = Event.snapReadI v b l f) := by
  unfold snapReadEvs at h
  simp only [List.mem_flatMap, List.mem_range] at h
  obtain ⟨l, hl, hmem⟩ := h
  rcases List.mem_cons.mp hmem with h1 | h2
  · exact Or.inl ⟨l, hl, h1⟩
  · simp only [List.mem_map, List.mem_range] at h2
    obtain ⟨f, hf, rfl⟩ := h2
    exact Or.inr ⟨l, f, hl, hf, rfl⟩

theorem mem_snapWriteEvs {op : OptionsS} {v b : Nat} {e : Event}
    (h : e ∈ snapWriteEvs op v b) :
    (∃ l, l < op.Nlayer ∧ e = Event.snapWriteM v b l) ∨
    (∃ l f, l < op.Nlayer ∧ f < op.Nfrost ∧ e = Event.snapWriteI v b l f) := by
  unfold snapWriteEvs at h
  simp only [List.mem_flatMap, List.mem_range] at h
  obtain ⟨l, hl, hmem⟩ := h
  rcases List.mem_cons.mp hmem with h1 | h2
  · exact Or.inl ⟨l, hl, h1⟩
  · simp only [List.mem_map, List.mem_range] at h2
    obtain ⟨f, hf, rfl⟩ := h2
    exact Or.inr ⟨l, f, hl, hf, rfl⟩

theorem mem_estEvs {op : OptionsS} {v b : Nat} {e : Event}
    (h : e ∈ estEvs op v b) :
    e = Event.quickFluxCall v b ∨ e = Event.fullEstimateCall v b := by
  unfold estEvs at h
  by_cases hc : op.QUICK_FLUX = true
  · rw [if_pos hc] at h
    exact Or.inl (by simpa using h)
  · rw [if_neg hc] at h
    exact Or.inr (by simpa using h)

theorem mem_frontsEvs {op : OptionsS} {sc : SoilCon} {v b : Nat} {e : Event}
    (h : e ∈ frontsEvs op sc v b) : e = Event.frontsCall v b := by
  unfold frontsEvs at h
  exact mem_ite_singleton h

/-- Every event of the post-distribution part of a pass-2 tile body
satisfies the tile predicate. -/
theorem tileEvPred_core (op : OptionsS) (dt : ℚ) (sc : SoilCon) (v b : Nat)
    (s : Option SnapRow) (c k th : ℚ) :
    ∀ e, e ∈ stabEvs op dt v b c k th ++ snapReadEvs op v b ++
        [Event.writeBack v b
          ((List.range op.Nlayer).map ((s.getD (fun _ => 0, fun _ _ => 0)).1))
          ((List.range op.Nlayer).map
            (fun l => (List.range op.Nfrost).map
              ((s.getD (fun _ => 0, fun _ _ => 0)).2 l)))] ++
        estEvs op v b ++ frontsEvs op sc v b →
      tileEvPred op s v b e := by
  intro e he
  rcases List.mem_append.mp he with he1 | he5
  rotate_left
  · rw [mem_frontsEvs he5]
    exact ⟨rfl, rfl⟩
  rcases List.mem_append.mp he1 with he2 | he4
  rotate_left
  · rcases mem_estEvs he4 with rfl | rfl
    · exact ⟨rfl, rfl⟩
    · exact ⟨rfl, rfl⟩
  rcases List.mem_append.mp he2 with he3 | hewb
  rotate_left
  · have : e = Event.writeBack v b
        ((List.range op.Nlayer).map ((s.getD (fun _ => 0, fun _ _ => 0)).1))
        ((List.range op.Nlayer).map
          (fun l => (List.range op.Nfrost).map
            ((s.getD (fun _ => 0, fun _ _ => 0)).2 l))) := by
      simpa using hewb
    rw [this]
    exact ⟨rfl, rfl, rfl, rfl⟩
  rcases List.mem_append.mp he3 with hest | herd
  · rcases mem_stabEvs hest with rfl | rfl
    · exact ⟨rfl, rfl⟩
    · exact ⟨rfl, rfl⟩
  · rcases mem_snapReadEvs herd with ⟨l, hl, rfl⟩ | ⟨l, f, hl, hf, rfl⟩
    · exact ⟨rfl, rfl, hl⟩
    · exact ⟨rfl, rfl, hl, hf⟩

/-- The part of a pass-2 tile body after the node-moisture distribution:
whatever the estimator outcome, the snapshot buffer and foreign tiles are
untouched and every appended event satisfies the tile predicate. -/
theorem innerAny (E : Ext) (op : OptionsS) (dt : ℚ) (sc : SoilCon)
    (v b : Nat) (st1 : St) :
    (outSt ((estimateStep E op sc v b
        (writeBackStep op v b (stabilityStep op dt sc v b st1))).map
      (frontsStep E op sc v b))).snap = st1.snap ∧
    (∀ v2 b2, ¬(v2 = v ∧ b2 = b) →
      (outSt ((estimateStep E op sc v b
          (writeBackStep op v b (stabilityStep op dt sc v b st1))).map
        (frontsStep E op sc v b))).cell v2 b2 = st1.cell v2 b2 ∧
      (outSt ((estimateStep E op sc v b
          (writeBackStep op v b (stabilityStep op dt sc v b st1))).map
        (frontsStep E op sc v b))).energy v2 b2 = st1.energy v2 b2) ∧
    ∃ evs, (outSt ((estimateStep E op sc v b
        (writeBackStep op v b (stabilityStep op dt sc v b st1))).map
      (frontsStep E op sc v b))).trace = st1.trace ++ evs ∧
      ∀ e, e ∈ evs → tileEvPred op (st1.snap v b) v b e := by
  have hrow : snapRowOf (stabilityStep op dt sc v b st1) v b
      = (st1.snap v b).getD (fun _ => 0, fun _ _ => 0) := by
    simp [snapRowOf, stabilityStep_snap]
  have hEs := estimateStep_snap E op sc v b
    (writeBackStep op v b (stabilityStep op dt sc v b st1))
  have hEe := estimateStep_energy E op sc v b
    (writeBackStep op v b (stabilityStep op dt sc v b st1))
  have hEt := estimateStep_trace E op sc v b
    (writeBackStep op v b (stabilityStep op dt sc v b st1))
  cases hE2 : estimateStep E op sc v b
      (writeBackStep op v b (stabilityStep op dt sc v b st1)) with
  | error s2 =>
    rw [hE2] at hEs hEe hEt
    simp only [outSt] at hEs hEe hEt
    have hout : outSt ((Except.error s2 : Except St St).map (frontsStep E op sc v b))
        = s2 := rfl
    rw [hout]
    refine ⟨?_, ?_, ?_⟩
    · rw [hEs, writeBackStep_snap, stabilityStep_snap]
    · intro v2 b2 h2
      constructor
      · have hco := estimateStep_cell_other E op sc v b
          (writeBackStep op v b (stabilityStep op dt sc v b st1)) h2
        rw [hE2] at hco
        simp only [outSt] at hco
        rw [hco, writeBackStep_cell_other op v b _ h2, stabilityStep_cell]
      · rw [hEe, writeBackStep_energy, stabilityStep_energy]
    · refine ⟨stabEvs op dt v b ((st1.energy v b).Cs_node 1)
          ((st1.energy v b).kappa_node 1)
          (1/2 * (st1.energy v b).Cs_node 1 / (st1.energy v b).kappa_node 1 *
            (sc.dz_node 1)^2) ++ snapReadEvs op v b ++
        [Event.writeBack v b
          ((List.range op.Nlayer).map (((st1.snap v b).getD (fun _ => 0, fun _ _ => 0)).1))
          ((List.range op.Nlayer).map
            (fun l => (List.range op.Nfrost).map
              (((st1.snap v b).getD (fun _ => 0, fun _ _ => 0)).2 l)))] ++ estEvs op v b, ?_, ?_⟩
      · rw [hEt, writeBackStep_trace, hrow, stabilityStep_trace]
        simp only [List.append_assoc]
      · intro e he
        exact tileEvPred_core op dt sc v b (st1.snap v b) _ _ _ e
          (List.mem_append_left _ he)
  | ok s2 =>
    rw [hE2] at hEs hEe hEt
    simp only [outSt] at hEs hEe hEt
    have hout : outSt ((Except.ok s2 : Except St St).map (frontsStep E op sc v b))
        = frontsStep E op sc v b s2 := rfl
    rw [hout]
    refine ⟨?_, ?_, ?_⟩
    · rw [frontsStep_snap, hEs, writeBackStep_snap, stabilityStep_snap]
    · intro v2 b2 h2
      constructor
      · have hco := estimateStep_cell_other E op sc v b
          (writeBackStep op v b (stabilityStep op dt sc v b st1)) h2
        rw [hE2] at hco
        simp only [outSt] at hco
        rw [frontsStep_cell, hco, writeBackStep_cell_other op v b _ h2,
          stabilityStep_cell]
      · rw [frontsStep_energy_other E op sc v b s2 h2, hEe, writeBackStep_energy,
          stabilityStep_energy]
    · refine ⟨stabEvs op dt v b ((st1.energy v b).Cs_node 1)
          ((st1.energy v b).kappa_node 1)
          (1/2 * (st1.energy v b).Cs_node 1 / (st1.energy v b).kappa_node 1 *
            (sc.dz_node 1)^2) ++ snapReadEvs op v b ++
        [Event.writeBack v b
          ((List.range op.Nlayer).map (((st1.snap v b).getD (fun _ => 0, fun _ _ => 0)).1))
          ((List.range op.Nlayer).map
            (fun l => (List.range op.Nfrost).map
              (((st1.snap v b).getD (fun _ => 0, fun _ _ => 0)).2 l)))] ++ estEvs op v b ++ frontsEvs op sc v b, ?_, ?_⟩
      · rw [frontsStep_trace, hEt, writeBackStep_trace, hrow, stabilityStep_trace]
        simp only [List.append_assoc]
      · intro e he
        exact tileEvPred_core op dt sc v b (st1.snap v b) _ _ _ e he

/-- A pass-2 tile body, on an arbitrary state and with an arbitrary outcome:
the snapshot buffer and foreign tiles are untouched and every appended event
is the latch event or an event of this tile. -/
theorem tileBody2_any (E : Ext) (op : OptionsS) (dt : ℚ) (sc : SoilCon)
    (v b : Nat) (st : St) :
    (outSt (tileBody2 E op dt sc v b st)).snap = st.snap ∧
    (∀ v2 b2, ¬(v2 = v ∧ b2 = b) →
      (outSt (tileBody2 E op dt sc v b st)).cell v2 b2 = st.cell v2 b2 ∧
      (outSt (tileBody2 E op dt sc v b st)).energy v2 b2 = st.energy v2 b2) ∧
    ∃ evs, (outSt (tileBody2 E op dt sc v b st)).trace = st.trace ++ evs ∧
      ∀ e, e ∈ evs → tileEvPred op (st.snap v b) v b e := by
  have hDs := distributeStep_snap E op sc v b (latchStep E op sc st)
  have hDc := distributeStep_cell E op sc v b (latchStep E op sc st)
  have hDt := distributeStep_trace E op sc v b (latchStep E op sc st)
  unfold tileBody2
  cases hD : distributeStep E op sc v b (latchStep E op sc st) with
  | error s =>
    rw [hD] at hDs hDc hDt
    simp only [outSt] at hDs hDc hDt
    have hout : outSt ((Except.error s : Except St St).bind (fun st1 =>
        (estimateStep E op sc v b
            (writeBackStep op v b (stabilityStep op dt sc v b st1))).map
          (frontsStep E op sc v b))) = s := rfl
    rw [hout]
    refine ⟨?_, ?_, ?_⟩
    · rw [hDs, latchStep_snap]
    · intro v2 b2 h2
      constructor
      · rw [hDc, latchStep_cell]
      · have hdo := distributeStep_energy_other E op sc v b (latchStep E op sc st) h2
        rw [hD] at hdo
        simp only [outSt] at hdo
        rw [hdo, latchStep_energy]
    · refine ⟨(if st.firstVeg then [Event.setNodeParams] else []) ++ distEvs op v b,
        ?_, ?_⟩
      · rw [hDt, latchStep_trace]
        simp only [List.append_assoc]
      · intro e he
        rcases List.mem_append.mp he with h1 | h1
        · rw [mem_ite_singleton h1]
          exact trivial
        · rw [mem_distEvs h1]
          exact ⟨rfl, rfl⟩
  | ok st1 =>
    rw [hD] at hDs hDc hDt
    simp only [outSt] at hDs hDc hDt
    have hout : (Except.ok st1 : Except St St).bind (fun st2 =>
        (estimateStep E op sc v b
            (writeBackStep op v b (stabilityStep op dt sc v b st2))).map
          (frontsStep E op sc v b))
      = (estimateStep E op sc v b
            (writeBackStep op v b (stabilityStep op dt sc v b st1))).map
          (frontsStep E op sc v b) := rfl
    rw [hout]
    obtain ⟨hIs, hIframe, evsI, hIt, hIpred⟩ := innerAny E op dt sc v b st1
    refine ⟨?_, ?_, ?_⟩
    · rw [hIs, hDs, latchStep_snap]
    · intro v2 b2 h2
      obtain ⟨hc1, he1⟩ := hIframe v2 b2 h2
      constructor
      · rw [hc1, hDc, latchStep_cell]
      · have hdo := distributeStep_energy_other E op sc v b (latchStep E op sc st) h2
        rw [hD] at hdo
        simp only [outSt] at hdo
        rw [he1, hdo, latchStep_energy]
    · refine ⟨(if st.firstVeg then [Event.setNodeParams] else []) ++ distEvs op v b
        ++ evsI, ?_, ?_⟩
      · rw [hIt, hDt, latchStep_trace]
        simp only [List.append_assoc]
      · intro e he
        rcases List.mem_append.mp he with h1 | h1
        · rcases List.mem_append.mp h1 with h2 | h2
          · rw [mem_ite_singleton h2]
            exact trivial
          · rw [mem_distEvs h2]
            exact ⟨rfl, rfl⟩
        · have := hIpred e h1
          rw [hDs, latchStep_snap] at this
          exact this

theorem outSt_ok (s : St) : outSt (.ok s) = s := rfl

theorem outSt_error (s : St) : outSt (.error s) = s := rfl

/-- Pass-2 fold on an arbitrary accumulator: whatever the outcome, the
snapshot buffer and the tiles outside the list are untouched, and every
appended event satisfies the predicate of some tile of the list. -/
theorem p2go_any (E : Ext) (op : OptionsS) (dt : ℚ) (sc : SoilCon)
    (l : List (Nat × Nat)) :
    ∀ (a : Except St St),
      (outSt (p2go E op dt sc l a)).snap = (outSt a).snap ∧
      (∀ v2 b2, (v2, b2) ∉ l →
        (outSt (p2go E op dt sc l a)).cell v2 b2 = (outSt a).cell v2 b2 ∧
        (outSt (p2go E op dt sc l a)).energy v2 b2 = (outSt a).energy v2 b2) ∧
      ∃ evs, (outSt (p2go E op dt sc l a)).trace = (outSt a).trace ++ evs ∧
        ∀ e, e ∈ evs → ∃ t, t ∈ l ∧
          tileEvPred op ((outSt a).snap t.1 t.2) t.1 t.2 e := by
  induction l with
  | nil =>
    intro a
    exact ⟨rfl, fun _ _ _ => ⟨rfl, rfl⟩, [], by simp [p2go], fun e he => absurd he (List.not_mem_nil e)⟩
  | cons t ts ih =>
    intro a
    cases a with
    | error s =>
      rw [p2go_error]
      exact ⟨rfl, fun _ _ _ => ⟨rfl, rfl⟩, [], by simp,
        fun e he => absurd he (List.not_mem_nil e)⟩
    | ok s =>
      have hstep : p2go E op dt sc (t :: ts) (.ok s)
          = p2go E op dt sc ts (tileBody2 E op dt sc t.1 t.2 s) := rfl
      obtain ⟨hbs, hbframe, evsB, hbt, hbpred⟩ := tileBody2_any E op dt sc t.1 t.2 s
      rw [hstep]
      simp only [outSt_ok]
      cases hres : tileBody2 E op dt sc t.1 t.2 s with
      | error s2 =>
        rw [hres] at hbs hbframe hbt
        simp only [outSt] at hbs hbframe hbt
        rw [p2go_error]
        refine ⟨hbs, ?_, evsB, hbt, ?_⟩
        · intro v2 b2 hmem
          exact hbframe v2 b2 (by
            rintro ⟨rfl, rfl⟩
            exact hmem (List.mem_cons_self _ _))
        · intro e he
          exact ⟨t, List.mem_cons_self _ _, hbpred e he⟩
      | ok s2 =>
        rw [hres] at hbs hbframe hbt
        simp only [outSt] at hbs hbframe hbt
        obtain ⟨hs', hframe', evs', ht', hpred'⟩ := ih (.ok s2)
        simp only [outSt_ok] at hs' hframe' ht' hpred'
        refine ⟨?_, ?_, evsB ++ evs', ?_, ?_⟩
        · rw [hs', hbs]
        · intro v2 b2 hmem
          have hne : ¬(v2 = t.1 ∧ b2 = t.2) := by
            rintro ⟨rfl, rfl⟩
            exact hmem (List.mem_cons_self _ _)
          obtain ⟨hc1, he1⟩ := hframe' v2 b2 (fun hm => hmem (List.mem_cons_of_mem _ hm))
          obtain ⟨hc2, he2⟩ := hbframe v2 b2 hne
          exact ⟨hc1.trans hc2, he1.trans he2⟩
        · rw [ht', hbt, List.append_assoc]
        · intro e he
          rcases List.mem_append.mp he with h1 | h1
          · exact ⟨t, List.mem_cons_self _ _, hbpred e h1⟩
          · obtain ⟨t2, ht2, hp2⟩ := hpred' e h1
            rw [hbs] at hp2
            exact ⟨t2, List.mem_cons_of_mem _ ht2, hp2⟩

/-- Whole run, arbitrary outcome: tiles outside the selected set keep their
entry cell/energy state exactly, and the trace is the pass-1 events followed
by pass-2 events each belonging to some selected tile (with the write-back
payload equal to that tile's captured snapshot row). -/
theorem run_any (E : Ext) (op : OptionsS) (dt : ℚ) (sc : SoilCon)
    (vc : VegCon) (ng0 : NodeGrid) (cell0 : Nat → Nat → CellTile)
    (energy0 : Nat → Nat → EnergyTile) :
    (∀ v2 b2, (v2, b2) ∉ selectedTiles op sc vc →
      (outSt (compute_derived_state_vars E op dt sc vc ng0 cell0 energy0)).cell
          v2 b2 = cell0 v2 b2 ∧
      (outSt (compute_derived_state_vars E op dt sc vc ng0 cell0 energy0)).energy
          v2 b2 = energy0 v2 b2) ∧
    ∃ evs, (outSt (compute_derived_state_vars E op dt sc vc ng0 cell0 energy0)).trace
        = (selectedTiles op sc vc).flatMap (fun t => tileEv1 op t.1 t.2) ++ evs ∧
      ∀ e, e ∈ evs → ∃ t, t ∈ selectedTiles op sc vc ∧
        tileEvPred op (some (capturedRow op (cell0 t.1 t.2))) t.1 t.2 e := by
  unfold compute_derived_state_vars
  rw [pass1_eq, pass2_eq]
  obtain ⟨hs2, hframe2, evs2, ht2, hpred2⟩ :=
    p2go_any E op dt sc (selectedTiles op sc vc)
      (.ok { p1go E op sc (selectedTiles op sc vc) (initSt ng0 cell0 energy0)
        with firstVeg := true })
  simp only [outSt_ok] at hs2 hframe2 ht2 hpred2
  constructor
  · intro v2 b2 hmem
    obtain ⟨hc1, he1⟩ := hframe2 v2 b2 hmem
    constructor
    · rw [hc1]
      show (p1go E op sc (selectedTiles op sc vc) (initSt ng0 cell0 energy0)).cell
        v2 b2 = cell0 v2 b2
      rw [p1go_cell_notMem E op sc _ _ hmem]
      rfl
    · rw [he1]
      show (p1go E op sc (selectedTiles op sc vc) (initSt ng0 cell0 energy0)).energy
        v2 b2 = energy0 v2 b2
      rw [p1go_energy]
      rfl
  · refine ⟨evs2, ?_, ?_⟩
    · rw [ht2]
      show ((p1go E op sc (selectedTiles op sc vc) (initSt ng0 cell0 energy0)).trace
        ++ evs2) = _
      rw [p1go_trace]
      simp [initSt]
    · intro e he
      obtain ⟨t, ht, hp⟩ := hpred2 e he
      refine ⟨t, ht, ?_⟩
      have hsnapt : ({ p1go E op sc (selectedTiles op sc vc)
          (initSt ng0 cell0 energy0) with firstVeg := true } : St).snap t.1 t.2
          = some (capturedRow op (cell0 t.1 t.2)) := by
        show (p1go E op sc (selectedTiles op sc vc)
          (initSt ng0 cell0 energy0)).snap t.1 t.2 = _
        have := @p1go_snap_mem E op sc (selectedTiles op sc vc)
          (initSt ng0 cell0 energy0) t.1 t.2 (by simpa using ht)
        simpa [initSt] using this
      rw [hsnapt] at hp
      exact hp

/-! ### Membership characterizations of the event blocks -/

theorem mem_tileEv1 {op : OptionsS} {v b : Nat} {e : Event}
    (h : e ∈ tileEv1 op v b) :
    (∃ l, l < op.Nlayer ∧ e = Event.snapWriteM v b l) ∨
    (∃ l f, l < op.Nlayer ∧ f < op.Nfrost ∧ e = Event.snapWriteI v b l f) ∨
    e = Event.runoffAsat v b := by
  unfold tileEv1 at h
  rcases List.mem_append.mp h with h1 | h1
  · rcases mem_snapWriteEvs h1 with h2 | h2
    · exact Or.inl h2
    · exact Or.inr (Or.inl h2)
  · exact Or.inr (Or.inr (by simpa using h1))

theorem mem_p1evs {op : OptionsS} {l : List (Nat × Nat)} {e : Event}
    (h : e ∈ l.flatMap (fun t => tileEv1 op t.1 t.2)) :
    ∃ t, t ∈ l ∧
      ((∃ li, li < op.Nlayer ∧ e = Event.snapWriteM t.1 t.2 li) ∨
       (∃ li f, li < op.Nlayer ∧ f < op.Nfrost ∧ e = Event.snapWriteI t.1 t.2 li f) ∨
       e = Event.runoffAsat t.1 t.2) := by
  simp only [List.mem_flatMap] at h
  obtain ⟨t, ht, hmem⟩ := h
  exact ⟨t, ht, mem_tileEv1 hmem⟩

theorem mem_ite_singleton' {c : Prop} [Decidable c] {x e : Event}
    (h : e ∈ (if c then [x] else [])) : c ∧ e = x := by
  by_cases hc : c
  · rw [if_pos hc] at h
    exact ⟨hc, by simpa using h⟩
  · rw [if_neg hc] at h
    simp at h

theorem mem_stabEvs' {op : OptionsS} {dt : ℚ} {v b : Nat} {c k th : ℚ} {e : Event}
    (h : e ∈ stabEvs op dt v b c k th) :
    (op.FROZEN_SOIL && !op.QUICK_FLUX && !op.IMPLICIT) = true ∧
      (e = Event.stabCheck v b c k th ∨ (th < dt ∧ e = Event.stabWarn v b)) := by
  unfold stabEvs at h
  by_cases hc : (op.FROZEN_SOIL && !op.QUICK_FLUX && !op.IMPLICIT) = true
  · rw [if_pos hc] at h
    rcases List.mem_cons.mp h with h1 | h2
    · exact ⟨hc, Or.inl h1⟩
    · obtain ⟨hlt, he⟩ := mem_ite_singleton' h2
      exact ⟨hc, Or.inr ⟨hlt, he⟩⟩
  · rw [if_neg hc] at h
    simp at h

theorem mem_estEvs' {op : OptionsS} {v b : Nat} {e : Event}
    (h : e ∈ estEvs op v b) :
    (op.QUICK_FLUX = true ∧ e = Event.quickFluxCall v b) ∨
    (op.QUICK_FLUX = false ∧ e = Event.fullEstimateCall v b) := by
  unfold estEvs at h
  by_cases hc : op.QUICK_FLUX = true
  · rw [if_pos hc] at h
    exact Or.inl ⟨hc, by simpa using h⟩
  · rw [if_neg hc] at h
    exact Or.inr ⟨Bool.not_eq_true _ ▸ hc, by simpa using h⟩

/-- Sharp characterization of the events of one pass-2 tile. -/
theorem mem_tileEv2 {E : Ext} {op : OptionsS} {dt : ℚ} {sc : SoilCon}
    {g : NodeGrid} {T rowM : Nat → ℚ} {rowI : Nat → Nat → ℚ} {first : Bool}
    {v b : Nat} {e : Event}
    (h : e ∈ tileEv2 E op dt sc g T rowM rowI first v b) :
    (first = true ∧ e = Event.setNodeParams) ∨
    ((op.FULL_ENERGY || op.FROZEN_SOIL) = true ∧ e = Event.distributeCall v b) ∨
    ((op.FROZEN_SOIL && !op.QUICK_FLUX && !op.IMPLICIT) = true ∧
      e = Event.stabCheck v b (cs1At E op sc g T rowM) (kp1At E op sc g T rowM)
        (threshAt E op sc g T rowM)) ∨
    ((op.FROZEN_SOIL && !op.QUICK_FLUX && !op.IMPLICIT) = true ∧
      threshAt E op sc g T rowM < dt ∧ e = Event.stabWarn v b) ∨
    (∃ l, l < op.Nlayer ∧ e = Event.snapReadM v b l) ∨
    (∃ l f, l < op.Nlayer ∧ f < op.Nfrost ∧ e = Event.snapReadI v b l f) ∨
    (e = Event.writeBack v b ((List.range op.Nlayer).map rowM)
      ((List.range op.Nlayer).map (fun l => (List.range op.Nfrost).map (rowI l)))) ∨
    (op.QUICK_FLUX = true ∧ e = Event.quickFluxCall v b) ∨
    (op.QUICK_FLUX = false ∧ e = Event.fullEstimateCall v b) ∨
    ((!op.QUICK_FLUX && sc.FS_ACTIVE) = true ∧ e = Event.frontsCall v b) := by
  unfold tileEv2 at h
  rcases List.mem_append.mp h with h1 | h1
  rotate_left
  · unfold frontsEvs at h1
    obtain ⟨hc, he⟩ := mem_ite_singleton' h1
    exact Or.inr (Or.inr (Or.inr (Or.inr (Or.inr (Or.inr (Or.inr (Or.inr
      (Or.inr ⟨hc, he⟩))))))))
  rcases List.mem_append.mp h1 with h2 | h2
  rotate_left
  · rcases mem_estEvs' h2 with h3 | h3
    · exact Or.inr (Or.inr (Or.inr (Or.inr (Or.inr (Or.inr (Or.inr (Or.inl h3)))))))
    · exact Or.inr (Or.inr (Or.inr (Or.inr (Or.inr (Or.inr (Or.inr (Or.inr
        (Or.inl h3))))))))
  rcases List.mem_append.mp h2 with h3 | h3
  rotate_left
  · exact Or.inr (Or.inr (Or.inr (Or.inr (Or.inr (Or.inr (Or.inl (by simpa using h3)))))))
  rcases List.mem_append.mp h3 with h4 | h4
  rotate_left
  · rcases mem_snapReadEvs h4 with ⟨l, hl, he⟩ | ⟨l, f, hl, hf, he⟩
    · exact Or.inr (Or.inr (Or.inr (Or.inr (Or.inl ⟨l, hl, he⟩))))
    · exact Or.inr (Or.inr (Or.inr (Or.inr (Or.inr (Or.inl ⟨l, f, hl, hf, he⟩)))))
  rcases List.mem_append.mp h4 with h5 | h5
  rotate_left
  · obtain ⟨hc, hd⟩ := mem_stabEvs' h5
    rcases hd with he | ⟨hlt, he⟩
    · exact Or.inr (Or.inr (Or.inl ⟨hc, he⟩))
    · exact Or.inr (Or.inr (Or.inr (Or.inl ⟨hc, hlt, he⟩)))
  rcases List.mem_append.mp h5 with h6 | h6
  · obtain ⟨hc, he⟩ := mem_ite_singleton' h6
    exact Or.inl ⟨hc, he⟩
  · unfold distEvs at h6
    obtain ⟨hc, he⟩ := mem_ite_singleton' h6
    exact Or.inr (Or.inl ⟨hc, he⟩)

/-- Every pass-2 trace event belongs to some tile of the list (with some
latch flag). -/
theorem mem_tileEvs2 {E : Ext} {op : OptionsS} {dt : ℚ} {sc : SoilCon}
    {g : NodeGrid} {rowF : Nat × Nat → SnapRow} {TF : Nat × Nat → Nat → ℚ} :
    ∀ {first : Bool} {l : List (Nat × Nat)} {e : Event},
      e ∈ tileEvs2 E op dt sc g rowF TF first l →
      ∃ t fl, t ∈ l ∧
        e ∈ tileEv2 E op dt sc g (TF t) (rowF t).1 (rowF t).2 fl t.1 t.2 := by
  intro first l
  induction l generalizing first with
  | nil => intro e h; simp [tileEvs2] at h
  | cons t ts ih =>
    intro e h
    rw [show tileEvs2 E op dt sc g rowF TF first (t :: ts)
      = tileEv2 E op dt sc g (TF t) (rowF t).1 (rowF t).2 first t.1 t.2 ++
        tileEvs2 E op dt sc g rowF TF false ts from rfl] at h
    rcases List.mem_append.mp h with h1 | h1
    · exact ⟨t, first, List.mem_cons_self _ _, h1⟩
    · obtain ⟨t2, fl, ht2, hmem⟩ := ih h1
      exact ⟨t2, fl, List.mem_cons_of_mem _ ht2, hmem⟩

/-- Conversely: an event present in a tile's block (for both latch flags) is
in the pass-2 trace of any list containing that tile. -/
theorem tileEvs2_mem_of {E : Ext} {op : OptionsS} {dt : ℚ} {sc : SoilCon}
    {g : NodeGrid} {rowF : Nat × Nat → SnapRow} {TF : Nat × Nat → Nat → ℚ}
    {t0 : Nat × Nat} {e : Event}
    (he : ∀ fl, e ∈ tileEv2 E op dt sc g (TF t0) (rowF t0).1 (rowF t0).2 fl t0.1 t0.2) :
    ∀ {first : Bool} {l : List (Nat × Nat)}, t0 ∈ l →
      e ∈ tileEvs2 E op dt sc g rowF TF first l := by
  intro first l
  induction l generalizing first with
  | nil => intro h; simp at h
  | cons t ts ih =>
    intro hmem
    rw [show tileEvs2 E op dt sc g rowF TF first (t :: ts)
      = tileEv2 E op dt sc g (TF t) (rowF t).1 (rowF t).2 first t.1 t.2 ++
        tileEvs2 E op dt sc g rowF TF false ts from rfl]
    rcases List.mem_cons.mp hmem with h1 | h1
    · subst h1
      exact List.mem_append_left _ (he first)
    · exact List.mem_append_right _ (ih h1)

theorem stabCheck_mem_tileEv2 (E : Ext) (op : OptionsS) (dt : ℚ) (sc : SoilCon)
    (g : NodeGrid) (T rowM : Nat → ℚ) (rowI : Nat → Nat → ℚ) (first : Bool)
    (v b : Nat)
    (hstab : (op.FROZEN_SOIL && !op.QUICK_FLUX && !op.IMPLICIT) = true) :
    Event.stabCheck v b (cs1At E op sc g T rowM) (kp1At E op sc g T rowM)
      (threshAt E op sc g T rowM) ∈ tileEv2 E op dt sc g T rowM rowI first v b := by
  unfold tileEv2
  have hS : Event.stabCheck v b (cs1At E op sc g T rowM) (kp1At E op sc g T rowM)
      (threshAt E op sc g T rowM) ∈ stabEvs op dt v b (cs1At E op sc g T rowM)
        (kp1At E op sc g T rowM) (threshAt E op sc g T rowM) := by
    unfold stabEvs
    rw [if_pos hstab]
    exact List.mem_cons_self _ _
  exact List.mem_append_left _ (List.mem_append_left _ (List.mem_append_left _
    (List.mem_append_left _ (List.mem_append_right _ hS))))

theorem stabWarn_mem_tileEv2 (E : Ext) (op : OptionsS) (dt : ℚ) (sc : SoilCon)
    (g : NodeGrid) (T rowM : Nat → ℚ) (rowI : Nat → Nat → ℚ) (first : Bool)
    (v b : Nat)
    (hstab : (op.FROZEN_SOIL && !op.QUICK_FLUX && !op.IMPLICIT) = true)
    (hlt : threshAt E op sc g T rowM < dt) :
    Event.stabWarn v b ∈ tileEv2 E op dt sc g T rowM rowI first v b := by
  unfold tileEv2
  have hS : Event.stabWarn v b ∈ stabEvs op dt v b (cs1At E op sc g T rowM)
      (kp1At E op sc g T rowM) (threshAt E op sc g T rowM) := by
    unfold stabEvs
    rw [if_pos hstab]
    refine List.mem_cons_of_mem _ ?_
    rw [if_pos hlt]
    exact List.mem_singleton.mpr rfl
  exact List.mem_append_left _ (List.mem_append_left _ (List.mem_append_left _
    (List.mem_append_left _ (List.mem_append_right _ hS))))

theorem writeBack_mem_tileEv2 (E : Ext) (op : OptionsS) (dt : ℚ) (sc : SoilCon)
    (g : NodeGrid) (T rowM : Nat → ℚ) (rowI : Nat → Nat → ℚ) (first : Bool)
    (v b : Nat) :
    Event.writeBack v b ((List.range op.Nlayer).map rowM)
      ((List.range op.Nlayer).map (fun l => (List.range op.Nfrost).map (rowI l)))
      ∈ tileEv2 E op dt sc g T rowM rowI first v b := by
  unfold tileEv2
  exact List.mem_append_left _ (List.mem_append_left _ (List.mem_append_right _
    (List.mem_singleton.mpr rfl)))

theorem tileEv2_true_eq (E : Ext) (op : OptionsS) (dt : ℚ) (sc : SoilCon)
    (g : NodeGrid) (T rowM : Nat → ℚ) (rowI : Nat → Nat → ℚ) (v b : Nat) :
    tileEv2 E op dt sc g T rowM rowI true v b
      = Event.setNodeParams :: tileEv2 E op dt sc g T rowM rowI false v b := by
  simp [tileEv2]

theorem setNode_not_mem_tileEv2_false (E : Ext) (op : OptionsS) (dt : ℚ)
    (sc : SoilCon) (g : NodeGrid) (T rowM : Nat → ℚ) (rowI : Nat → Nat → ℚ)
    (v b : Nat) :
    Event.setNodeParams ∉ tileEv2 E op dt sc g T rowM rowI false v b := by
  intro h
  rcases mem_tileEv2 h with ⟨h1, _⟩ | ⟨_, h2⟩ | ⟨_, h2⟩ | ⟨_, _, h2⟩ |
    ⟨l, _, h2⟩ | ⟨l, f, _, _, h2⟩ | h2 | ⟨_, h2⟩ | ⟨_, h2⟩ | ⟨_, h2⟩
  · exact Bool.false_ne_true h1
  all_goals simp at h2

theorem setNode_not_mem_tileEvs2_false (E : Ext) (op : OptionsS) (dt : ℚ)
    (sc : SoilCon) (g : NodeGrid) (rowF : Nat × Nat → SnapRow)
    (TF : Nat × Nat → Nat → ℚ) (l : List (Nat × Nat)) :
    Event.setNodeParams ∉ tileEvs2 E op dt sc g rowF TF false l := by
  induction l with
  | nil => simp [tileEvs2]
  | cons t ts ih =>
    intro h
    rw [show tileEvs2 E op dt sc g rowF TF false (t :: ts)
      = tileEv2 E op dt sc g (TF t) (rowF t).1 (rowF t).2 false t.1 t.2 ++
        tileEvs2 E op dt sc g rowF TF false ts from rfl] at h
    rcases List.mem_append.mp h with h1 | h1
    · exact setNode_not_mem_tileEv2_false E op dt sc g (TF t) (rowF t).1
        (rowF t).2 t.1 t.2 h1
    · exact ih h1

theorem setNode_not_mem_p1evs (op : OptionsS) (l : List (Nat × Nat)) :
    Event.setNodeParams ∉ l.flatMap (fun t => tileEv1 op t.1 t.2) := by
  intro h
  obtain ⟨t, _, hsh⟩ := mem_p1evs h
  rcases hsh with ⟨li, _, h2⟩ | ⟨li, f, _, _, h2⟩ | h2 <;> simp at h2

/-! ### The selected-tile list -/

theorem mem_selectedTiles (op : OptionsS) (sc : SoilCon) (vc : VegCon)
    (v b : Nat) :
    (v, b) ∈ selectedTiles op sc vc ↔
      (v < vc.vegetat_type_num + 1 ∧ b < op.SNOW_BAND ∧
        0 < vc.Cv v ∧ 0 < sc.AreaFract b) := by
  unfold selectedTiles
  constructor
  · intro h
    simp only [List.mem_flatMap, List.mem_range] at h
    obtain ⟨v1, hv1, hmem⟩ := h
    by_cases hc : 0 < vc.Cv v1
    · rw [if_pos hc] at hmem
      simp only [List.mem_map, List.mem_filter, List.mem_range,
        decide_eq_true_eq] at hmem
      obtain ⟨b1, ⟨hb1, haf⟩, heq⟩ := hmem
      rw [Prod.mk.injEq] at heq
      obtain ⟨rfl, rfl⟩ := heq
      exact ⟨hv1, hb1, hc, haf⟩
    · rw [if_neg hc] at hmem
      simp at hmem
  · rintro ⟨hv, hb, hcv, haf⟩
    simp only [List.mem_flatMap, List.mem_range]
    refine ⟨v, hv, ?_⟩
    rw [if_pos hcv]
    simp only [List.mem_map, List.mem_filter, List.mem_range, decide_eq_true_eq]
    exact ⟨b, ⟨hb, haf⟩, rfl⟩

theorem selectedTiles_nodup (op : OptionsS) (sc : SoilCon) (vc : VegCon) :
    (selectedTiles op sc vc).Nodup := by
  unfold selectedTiles
  rw [List.nodup_flatMap]
  constructor
  · intro v _
    by_cases hc : 0 < vc.Cv v
    · rw [if_pos hc]
      exact (List.Nodup.filter _ (List.nodup_range _)).map
        (fun b1 b2 h => by simpa using congrArg Prod.snd h)
    · rw [if_neg hc]
      exact List.nodup_nil
  · refine List.Pairwise.imp ?_ (List.pairwise_lt_range _)
    intro v1 v2 hlt t ht1 ht2
    dsimp only at ht1 ht2
    have h1 : t.1 = v1 := by
      by_cases hc : 0 < vc.Cv v1
      · rw [if_pos hc] at ht1
        obtain ⟨b1, _, rfl⟩ := List.mem_map.mp ht1
        rfl
      · rw [if_neg hc] at ht1
        simp at ht1
    have h2 : t.1 = v2 := by
      by_cases hc : 0 < vc.Cv v2
      · rw [if_pos hc] at ht2
        obtain ⟨b1, _, rfl⟩ := List.mem_map.mp ht2
        rfl
      · rw [if_neg hc] at ht2
        simp at ht2
    exact absurd (h1.symm.trans h2) (Nat.ne_of_lt hlt)

/-- Under nonnegative fractions, the loop guards coincide with the spec's
"strictly positive combined weight" filter. -/
theorem selectedTiles_eq_spec (op : OptionsS) (sc : SoilCon) (vc : VegCon)
    (hCv : ∀ v, 0 ≤ vc.Cv v) :
    selectedTiles op sc vc = specSelectedTiles op sc vc := by
  unfold selectedTiles specSelectedTiles
  have hfil : ∀ lv : List Nat,
      (lv.flatMap (fun v => (List.range op.SNOW_BAND).map (fun b => (v, b)))).filter
          (fun t => decide (0 < vc.Cv t.1 * sc.AreaFract t.2))
        = lv.flatMap (fun v =>
            ((List.range op.SNOW_BAND).map (fun b => (v, b))).filter
              (fun t => decide (0 < vc.Cv t.1 * sc.AreaFract t.2))) := by
    intro lv
    induction lv with
    | nil => rfl
    | cons v vs ih => simp [List.flatMap_cons, List.filter_append, ih]
  rw [hfil]
  refine congrArg _ (funext fun v => ?_)
  rw [List.filter_map]
  by_cases hc : 0 < vc.Cv v
  · rw [if_pos hc]
    refine congrArg (List.map fun b => (v, b)) (List.filter_congr fun b _ => ?_)
    simp only [Function.comp_apply, decide_eq_decide]
    constructor
    · intro haf
      exact mul_pos hc haf
    · intro hmul
      by_contra haf
      have h0 : sc.AreaFract b ≤ 0 := le_of_not_lt haf
      exact absurd hmul
        (not_lt.mpr (mul_nonpos_of_nonneg_of_nonpos (hCv v) h0))
  · rw [if_neg hc]
    have hz : vc.Cv v = 0 := le_antisymm (le_of_not_lt hc) (hCv v)
    rw [List.filter_eq_nil_iff.mpr (fun b _ => by simp [Function.comp, hz])]
    simp

/-! ### Derived per-tile stability quantities -/

/-- The node grid produced by `set_node_parameters` from the initial soil
state of a run. -/
def gridDerived (E : Ext) (op : OptionsS) (sc : SoilCon) (ng0 : NodeGrid) :
    NodeGrid :=
  E.set_node_parameters ng0 sc op.Nnode op.Nlayer

/-- Node-1 heat capacity of a tile at its stability check. -/
def tileCs1 (E : Ext) (op : OptionsS) (sc : SoilCon) (ng0 : NodeGrid)
    (cell0 : Nat → Nat → CellTile) (energy0 : Nat → Nat → EnergyTile)
    (v b : Nat) : ℚ :=
  cs1At E op sc (gridDerived E op sc ng0) ((energy0 v b).T)
    ((capturedRow op (cell0 v b)).1)

/-- Node-1 thermal conductivity of a tile at its stability check. -/
def tileKp1 (E : Ext) (op : OptionsS) (sc : SoilCon) (ng0 : NodeGrid)
    (cell0 : Nat → Nat → CellTile) (energy0 : Nat → Nat → EnergyTile)
    (v b : Nat) : ℚ :=
  kp1At E op sc (gridDerived E op sc ng0) ((energy0 v b).T)
    ((capturedRow op (cell0 v b)).1)

/-- The stability threshold `dt_thresh` of a tile. -/
def tileThresh (E : Ext) (op : OptionsS) (sc : SoilCon) (ng0 : NodeGrid)
    (cell0 : Nat → Nat → CellTile) (energy0 : Nat → Nat → EnergyTile)
    (v b : Nat) : ℚ :=
  threshAt E op sc (gridDerived E op sc ng0) ((energy0 v b).T)
    ((capturedRow op (cell0 v b)).1)

theorem stabFlags_iff (op : OptionsS) :
    (op.FROZEN_SOIL && !op.QUICK_FLUX && !op.IMPLICIT) = true ↔
      (op.FROZEN_SOIL = true ∧ op.QUICK_FLUX = false ∧ op.IMPLICIT = false) := by
  simp [Bool.and_eq_true, Bool.not_eq_true', and_assoc]

/-- Master lemma for the stability check: soundness and completeness of the
`stabCheck`/`stabWarn` events, their payloads, and the presence of the
write-back for every selected tile. -/
theorem stab_master (E : Ext) (op : OptionsS) (dt : ℚ) (sc : SoilCon)
    (vc : VegCon) (ng0 : NodeGrid) (cell0 : Nat → Nat → CellTile)
    (energy0 : Nat → Nat → EnergyTile) (hok : extOk E) :
    ∃ st', compute_derived_state_vars E op dt sc vc ng0 cell0 energy0 = .ok st' ∧
      (∀ v b c k th, Event.stabCheck v b c k th ∈ st'.trace →
        (v, b) ∈ selectedTiles op sc vc ∧
        (op.FROZEN_SOIL && !op.QUICK_FLUX && !op.IMPLICIT) = true ∧
        c = tileCs1 E op sc ng0 cell0 energy0 v b ∧
        k = tileKp1 E op sc ng0 cell0 energy0 v b ∧
        th = tileThresh E op sc ng0 cell0 energy0 v b ∧
        th = 1/2 * c / k * (sc.dz_node 1)^2) ∧
      (∀ v b, (v, b) ∈ selectedTiles op sc vc →
        (op.FROZEN_SOIL && !op.QUICK_FLUX && !op.IMPLICIT) = true →
        Event.stabCheck v b (tileCs1 E op sc ng0 cell0 energy0 v b)
          (tileKp1 E op sc ng0 cell0 energy0 v b)
          (tileThresh E op sc ng0 cell0 energy0 v b) ∈ st'.trace) ∧
      (∀ v b, Event.stabWarn v b ∈ st'.trace →
        (v, b) ∈ selectedTiles op sc vc ∧
        (op.FROZEN_SOIL && !op.QUICK_FLUX && !op.IMPLICIT) = true ∧
        tileThresh E op sc ng0 cell0 energy0 v b < dt) ∧
      (∀ v b, (v, b) ∈ selectedTiles op sc vc →
        (op.FROZEN_SOIL && !op.QUICK_FLUX && !op.IMPLICIT) = true →
        tileThresh E op sc ng0 cell0 energy0 v b < dt →
        Event.stabWarn v b ∈ st'.trace) ∧
      (∀ v b, (v, b) ∈ selectedTiles op sc vc →
        ∃ m i, Event.writeBack v b m i ∈ st'.trace) := by
  obtain ⟨st', hrun, htrace, hgrid, hsnapm, hframe, hT⟩ :=
    run_spec E op dt sc vc ng0 cell0 energy0 hok
  refine ⟨st', hrun, ?_, ?_, ?_, ?_, ?_⟩
  · intro v b c k th hmem
    rw [htrace] at hmem
    rcases List.mem_append.mp hmem with h1 | h1
    · obtain ⟨t, _, hsh⟩ := mem_p1evs h1
      rcases hsh with ⟨li, _, h2⟩ | ⟨li, f, _, _, h2⟩ | h2 <;> simp at h2
    · obtain ⟨t, fl, ht, hmem2⟩ := mem_tileEvs2 h1
      rcases mem_tileEv2 hmem2 with ⟨_, h2⟩ | ⟨_, h2⟩ | ⟨hstab, h2⟩ |
        ⟨_, _, h2⟩ | ⟨li, _, h2⟩ | ⟨li, f, _, _, h2⟩ | h2 | ⟨_, h2⟩ | ⟨_, h2⟩ |
        ⟨_, h2⟩ <;> simp at h2
      obtain ⟨rfl, rfl, rfl, rfl, rfl⟩ := h2
      exact ⟨ht, hstab, rfl, rfl, rfl, rfl⟩
  · intro v b hm hstab
    rw [htrace]
    refine List.mem_append_right _ (tileEvs2_mem_of (fun fl => ?_) hm)
    exact stabCheck_mem_tileEv2 E op dt sc _ _ _ _ fl v b hstab
  · intro v b hmem
    rw [htrace] at hmem
    rcases List.mem_append.mp hmem with h1 | h1
    · obtain ⟨t, _, hsh⟩ := mem_p1evs h1
      rcases hsh with ⟨li, _, h2⟩ | ⟨li, f, _, _, h2⟩ | h2 <;> simp at h2
    · obtain ⟨t, fl, ht, hmem2⟩ := mem_tileEvs2 h1
      rcases mem_tileEv2 hmem2 with ⟨_, h2⟩ | ⟨_, h2⟩ | ⟨_, h2⟩ |
        ⟨hstab, hlt, h2⟩ | ⟨li, _, h2⟩ | ⟨li, f, _, _, h2⟩ | h2 | ⟨_, h2⟩ |
        ⟨_, h2⟩ | ⟨_, h2⟩ <;> simp at h2
      obtain ⟨rfl, rfl⟩ := h2
      exact ⟨ht, hstab, hlt⟩
  · intro v b hm hstab hlt
    rw [htrace]
    refine List.mem_append_right _ (tileEvs2_mem_of (fun fl => ?_) hm)
    exact stabWarn_mem_tileEv2 E op dt sc _ _ _ _ fl v b hstab hlt
  · intro v b hm
    refine ⟨(List.range op.Nlayer).map ((capturedRow op (cell0 v b)).1),
      (List.range op.Nlayer).map
        (fun l => (List.range op.Nfrost).map ((capturedRow op (cell0 v b)).2 l)), ?_⟩
    rw [htrace]
    refine List.mem_append_right _ (tileEvs2_mem_of (fun fl => ?_) hm)
    exact writeBack_mem_tileEv2 E op dt sc _ _ _ _ fl v b

/-- Master lemma for the `FIRST_VEG` latch: with at least one selected tile
the parameterization runs exactly once, as the first pass-2 action, and the
node grid it derives is the one every later tile is processed with; with no
selected tile it does not run. -/
theorem latch_master (E : Ext) (op : OptionsS) (dt : ℚ) (sc : SoilCon)
    (vc : VegCon) (ng0 : NodeGrid) (cell0 : Nat → Nat → CellTile)
    (energy0 : Nat → Nat → EnergyTile) (hok : extOk E) :
    ∃ st', compute_derived_state_vars E op dt sc vc ng0 cell0 energy0 = .ok st' ∧
      (selectedTiles op sc vc = [] →
        st'.trace.count Event.setNodeParams = 0 ∧ st'.nodeGrid = ng0) ∧
      (selectedTiles op sc vc ≠ [] →
        st'.trace.count Event.setNodeParams = 1 ∧
        st'.nodeGrid = gridDerived E op sc ng0 ∧
        ∃ rest, st'.trace =
          (selectedTiles op sc vc).flatMap (fun t => tileEv1 op t.1 t.2) ++
            Event.setNodeParams :: rest) ∧
      (∀ l1 l2, selectedTiles op sc vc = l1 ++ l2 → l1 ≠ [] →
        ∃ stm, p2go E op dt sc l1
            (.ok { pass1 E op sc vc (initSt ng0 cell0 energy0)
              with firstVeg := true })
          = .ok stm ∧ stm.nodeGrid = gridDerived E op sc ng0) := by
  obtain ⟨st', hrun, htrace, hgrid, hsnapm, hframe, hT⟩ :=
    run_spec E op dt sc vc ng0 cell0 energy0 hok
  refine ⟨st', hrun, ?_, ?_, ?_⟩
  · intro hsel
    rw [hsel] at htrace hgrid
    constructor
    · rw [htrace]
      rfl
    · rw [hgrid]
      rfl
  · intro hne
    obtain ⟨t, ts, hsel⟩ := List.exists_cons_of_ne_nil hne
    rw [hsel] at htrace hgrid
    have hshape : tileEvs2 E op dt sc (E.set_node_parameters ng0 sc op.Nnode op.Nlayer)
        (fun t => capturedRow op (cell0 t.1 t.2)) (fun t => (energy0 t.1 t.2).T)
        true (t :: ts)
      = Event.setNodeParams ::
          (tileEv2 E op dt sc (E.set_node_parameters ng0 sc op.Nnode op.Nlayer)
            ((energy0 t.1 t.2).T) ((capturedRow op (cell0 t.1 t.2)).1)
            ((capturedRow op (cell0 t.1 t.2)).2) false t.1 t.2 ++
          tileEvs2 E op dt sc (E.set_node_parameters ng0 sc op.Nnode op.Nlayer)
            (fun t => capturedRow op (cell0 t.1 t.2)) (fun t => (energy0 t.1 t.2).T)
            false ts) := by
      rw [show tileEvs2 E op dt sc (E.set_node_parameters ng0 sc op.Nnode op.Nlayer)
          (fun t => capturedRow op (cell0 t.1 t.2)) (fun t => (energy0 t.1 t.2).T)
          true (t :: ts)
        = tileEv2 E op dt sc (E.set_node_parameters ng0 sc op.Nnode op.Nlayer)
            ((energy0 t.1 t.2).T) ((capturedRow op (cell0 t.1 t.2)).1)
            ((capturedRow op (cell0 t.1 t.2)).2) true t.1 t.2 ++
          tileEvs2 E op dt sc (E.set_node_parameters ng0 sc op.Nnode op.Nlayer)
            (fun t => capturedRow op (cell0 t.1 t.2)) (fun t => (energy0 t.1 t.2).T)
            false ts from rfl, tileEv2_true_eq]
      rfl
    rw [hshape] at htrace
    refine ⟨?_, ?_, ?_⟩
    · rw [htrace, List.count_append]
      have h1 : ((t :: ts).flatMap (fun t => tileEv1 op t.1 t.2)).count
          Event.setNodeParams = 0 :=
        List.count_eq_zero.mpr (setNode_not_mem_p1evs op _)
      have h2 : (tileEv2 E op dt sc (E.set_node_parameters ng0 sc op.Nnode op.Nlayer)
            ((energy0 t.1 t.2).T) ((capturedRow op (cell0 t.1 t.2)).1)
            ((capturedRow op (cell0 t.1 t.2)).2) false t.1 t.2 ++
          tileEvs2 E op dt sc (E.set_node_parameters ng0 sc op.Nnode op.Nlayer)
            (fun t => capturedRow op (cell0 t.1 t.2)) (fun t => (energy0 t.1 t.2).T)
            false ts).count Event.setNodeParams = 0 := by
        refine List.count_eq_zero.mpr ?_
        intro h
        rcases List.mem_append.mp h with h3 | h3
        · exact setNode_not_mem_tileEv2_false E op dt sc _ _ _ _ t.1 t.2 h3
        · exact setNode_not_mem_tileEvs2_false E op dt sc _ _ _ ts h3
      rw [h1, List.count_cons_self, h2]
    · rw [hgrid, if_neg (List.cons_ne_nil t ts)]
      rfl
    · rw [hsel]
      exact ⟨_, htrace⟩
  · intro l1 l2 hsel hne
    obtain ⟨t, l1', rfl⟩ := List.exists_cons_of_ne_nil hne
    have hmem1 : ∀ t2, t2 ∈ t :: l1' → t2 ∈ selectedTiles op sc vc := by
      intro t2 h2
      rw [hsel]
      exact List.mem_append_left _ h2
    have hsnap1 : ∀ t2, t2 ∈ t :: l1' →
        (pass1 E op sc vc (initSt ng0 cell0 energy0)).snap t2.1 t2.2
          = some (capturedRow op (cell0 t2.1 t2.2)) := by
      intro t2 h2
      rw [pass1_eq]
      have := @p1go_snap_mem E op sc (selectedTiles op sc vc)
        (initSt ng0 cell0 energy0) t2.1 t2.2
        (by simpa using hmem1 t2 h2)
      simpa [initSt] using this
    have hT1 : ∀ t2, t2 ∈ t :: l1' →
        ((pass1 E op sc vc (initSt ng0 cell0 energy0)).energy t2.1 t2.2).T
          = (energy0 t2.1 t2.2).T := by
      intro t2 _
      rw [pass1_eq, p1go_energy]
      rfl
    have hg0 : (pass1 E op sc vc (initSt ng0 cell0 energy0)).nodeGrid = ng0 := by
      rw [pass1_eq, p1go_nodeGrid]
      rfl
    obtain ⟨st1, hb, hbt, hbf, hbg, hbs, hbframe, hbT⟩ :=
      tileBody2_ok E op dt sc t.1 t.2
        { pass1 E op sc vc (initSt ng0 cell0 energy0) with firstVeg := true } hok
        (capturedRow op (cell0 t.1 t.2)) (hsnap1 t (List.mem_cons_self t l1'))
    have hlg : latchGrid E op sc
        { pass1 E op sc vc (initSt ng0 cell0 energy0) with firstVeg := true }
        = gridDerived E op sc ng0 := by
      have hfv : ({ pass1 E op sc vc (initSt ng0 cell0 energy0)
          with firstVeg := true } : St).firstVeg = true := rfl
      unfold latchGrid
      rw [if_pos hfv]
      show E.set_node_parameters
        (pass1 E op sc vc (initSt ng0 cell0 energy0)).nodeGrid sc op.Nnode op.Nlayer
        = _
      rw [hg0]
      rfl
    obtain ⟨stm, hrunm, _, hgm, _, _, _, _⟩ :=
      p2go_ok E op dt sc hok (fun t2 => capturedRow op (cell0 t2.1 t2.2))
        (fun t2 => (energy0 t2.1 t2.2).T) l1' st1 hbf
        (fun t2 h2 => by
          rw [hbs]
          exact hsnap1 t2 (List.mem_cons_of_mem _ h2))
        (fun t2 h2 => by
          rw [hbT]
          exact hT1 t2 (List.mem_cons_of_mem _ h2))
    refine ⟨stm, ?_, ?_⟩
    · rw [p2go_cons]
      show p2go E op dt sc l1' (tileBody2 E op dt sc t.1 t.2 _) = .ok stm
      rw [hb]
      exact hrunm
    · rw [hgm, hbg, hlg]

/-! ### Claim-level auxiliary definitions -/

/-- Pass-2 events of a given tile (the latch event and pass-1 events belong
to no tile here). -/
def isPass2TileEvent (v b : Nat) : Event → Prop
  | .distributeCall v2 b2 => v2 = v ∧ b2 = b
  | .stabCheck v2 b2 _ _ _ => v2 = v ∧ b2 = b
  | .stabWarn v2 b2 => v2 = v ∧ b2 = b
  | .snapReadM v2 b2 _ => v2 = v ∧ b2 = b
  | .snapReadI v2 b2 _ _ => v2 = v ∧ b2 = b
  | .writeBack v2 b2 _ _ => v2 = v ∧ b2 = b
  | .quickFluxCall v2 b2 => v2 = v ∧ b2 = b
  | .fullEstimateCall v2 b2 => v2 = v ∧ b2 = b
  | .frontsCall v2 b2 => v2 = v ∧ b2 = b
  | _ => False

/-- Events that read the snapshot buffer of tile `(v, b)` during pass 2:
the elementwise write-back reads and the moisture row passed to
`distribute_node_moisture_properties`. -/
def readsSnapAt (v b : Nat) : Event → Prop
  | .snapReadM v2 b2 _ => v2 = v ∧ b2 = b
  | .snapReadI v2 b2 _ _ => v2 = v ∧ b2 = b
  | .distributeCall v2 b2 => v2 = v ∧ b2 = b
  | _ => False

/-- Bounds check of a snapshot-buffer access event against the scratch-array
capacities. -/
def snapAccessOKb (mv mb ml mf : Nat) : Event → Bool
  | .snapWriteM v b l => decide (v < mv) && decide (b < mb) && decide (l < ml)
  | .snapWriteI v b l f =>
      decide (v < mv) && decide (b < mb) && decide (l < ml) && decide (f < mf)
  | .snapReadM v b l => decide (v < mv) && decide (b < mb) && decide (l < ml)
  | .snapReadI v b l f =>
      decide (v < mv) && decide (b < mb) && decide (l < ml) && decide (f < mf)
  | .distributeCall v b => decide (v < mv) && decide (b < mb)
  | _ => true

theorem tileEvPred_not_isPass2 (op : OptionsS) (s : Option SnapRow)
    (v b v2 b2 : Nat) (hne : ¬(v = v2 ∧ b = b2)) (e : Event)
    (hp : tileEvPred op s v b e) : ¬ isPass2TileEvent v2 b2 e := by
  intro hI
  cases e with
  | snapWriteM _ _ _ => exact hp
  | snapWriteI _ _ _ _ => exact hp
  | runoffAsat _ _ => exact hp
  | setNodeParams => exact hI
  | distributeCall v3 b3 => exact hne ⟨hp.1.symm.trans hI.1, hp.2.symm.trans hI.2⟩
  | stabCheck v3 b3 _ _ _ =>
    exact hne ⟨hp.1.symm.trans hI.1, hp.2.symm.trans hI.2⟩
  | stabWarn v3 b3 => exact hne ⟨hp.1.symm.trans hI.1, hp.2.symm.trans hI.2⟩
  | snapReadM v3 b3 _ => exact hne ⟨hp.1.symm.trans hI.1, hp.2.1.symm.trans hI.2⟩
  | snapReadI v3 b3 _ _ =>
    exact hne ⟨hp.1.symm.trans hI.1, hp.2.1.symm.trans hI.2⟩
  | writeBack v3 b3 _ _ =>
    exact hne ⟨hp.1.symm.trans hI.1, hp.2.1.symm.trans hI.2⟩
  | quickFluxCall v3 b3 => exact hne ⟨hp.1.symm.trans hI.1, hp.2.symm.trans hI.2⟩
  | fullEstimateCall v3 b3 =>
    exact hne ⟨hp.1.symm.trans hI.1, hp.2.symm.trans hI.2⟩
  | frontsCall v3 b3 => exact hne ⟨hp.1.symm.trans hI.1, hp.2.symm.trans hI.2⟩

theorem p2go_append (E : Ext) (op : OptionsS) (dt : ℚ) (sc : SoilCon)
    (l1 l2 : List (Nat × Nat)) (a : Except St St) :
    p2go E op dt sc (l1 ++ l2) a = p2go E op dt sc l2 (p2go E op dt sc l1 a) := by
  unfold p2go
  exact List.foldl_append _ _ _ _

theorem map_range_captured_moist (op : OptionsS) (cl : CellTile) :
    (List.range op.Nlayer).map (capturedRow op cl).1
      = (List.range op.Nlayer).map cl.layerMoist :=
  List.map_congr_left fun l hl => by
    simp [capturedRow, List.mem_range.mp hl]

theorem map_range_captured_ice (op : OptionsS) (cl : CellTile) :
    (List.range op.Nlayer).map
        (fun l => (List.range op.Nfrost).map ((capturedRow op cl).2 l))
      = (List.range op.Nlayer).map
        (fun l => (List.range op.Nfrost).map (cl.layerIce l)) :=
  List.map_congr_left fun l hl =>
    List.map_congr_left fun f hf => by
      simp [capturedRow, List.mem_range.mp hl, List.mem_range.mp hf]

/-! ### The claims -/

/-- C4: The set of tiles processed is exactly the (vegetation index, band
index) pairs with vegetation index from 0 to Nveg inclusively (the final
index being the implicit bare-soil class), band index in [0, Nbands), and
strictly positive combined weight, enumerated in vegetation-index-major,
band-index-minor order. -/
theorem c4_tile_selection (E : Ext) (op : OptionsS) (dt : ℚ) (sc : SoilCon)
    (vc : VegCon) (ng0 : NodeGrid) (cell0 : Nat → Nat → CellTile)
    (energy0 : Nat → Nat → EnergyTile) (hCv : ∀ v, 0 ≤ vc.Cv v) :
    ((outSt (compute_derived_state_vars E op dt sc vc ng0 cell0 energy0)).trace.filterMap
        (fun e => match e with
          | Event.runoffAsat v b => some (v, b)
          | _ => none))
      = specSelectedTiles op sc vc := by
  obtain ⟨_, evs2, htr, hpred⟩ := run_any E op dt sc vc ng0 cell0 energy0
  rw [htr, List.filterMap_append]
  have h2 : evs2.filterMap
      (fun e => match e with
        | Event.runoffAsat v b => some (v, b)
        | _ => none) = [] := by
    rw [List.filterMap_eq_nil_iff]
    intro e he
    obtain ⟨t, _, hp⟩ := hpred e he
    cases e <;> first | rfl | exact hp.elim
  rw [h2, List.append_nil]
  have h1 : ∀ l : List (Nat × Nat),
      (l.flatMap (fun t => tileEv1 op t.1 t.2)).filterMap
        (fun e => match e with
          | Event.runoffAsat v b => some (v, b)
          | _ => none) = l := by
    intro l
    induction l with
    | nil => rfl
    | cons t ts ih =>
      rw [List.flatMap_cons, List.filterMap_append, ih]
      have hw : (tileEv1 op t.1 t.2).filterMap
          (fun e => match e with
            | Event.runoffAsat v b => some (v, b)
            | _ => none) = [t] := by
        unfold tileEv1
        rw [List.filterMap_append]
        have hz : (snapWriteEvs op t.1 t.2).filterMap
            (fun e => match e with
              | Event.runoffAsat v b => some (v, b)
              | _ => none) = [] := by
          rw [List.filterMap_eq_nil_iff]
          intro e he
          rcases mem_snapWriteEvs he with ⟨l2, _, rfl⟩ | ⟨l2, f, _, _, rfl⟩ <;> rfl
        rw [hz]
        rfl
      rw [hw]
      rfl
  rw [h1]
  exact selectedTiles_eq_spec op sc vc hCv

/-- C5: A tile whose cover fraction or band area fraction is not strictly
positive keeps its entire cell state (saturated-area fraction, water-table
depth, layer moisture, frost-area ice) and energy state (node
moisture/ice/conductivity/heat-capacity, front depths) exactly as on
entry. -/
theorem c5_unselected_tile_untouched (E : Ext) (op : OptionsS) (dt : ℚ)
    (sc : SoilCon) (vc : VegCon) (ng0 : NodeGrid)
    (cell0 : Nat → Nat → CellTile) (energy0 : Nat → Nat → EnergyTile)
    (v b : Nat) (h : ¬(0 < vc.Cv v ∧ 0 < sc.AreaFract b)) :
    (outSt (compute_derived_state_vars E op dt sc vc ng0 cell0 energy0)).cell v b
        = cell0 v b ∧
    (outSt (compute_derived_state_vars E op dt sc vc ng0 cell0 energy0)).energy v b
        = energy0 v b := by
  have hnot : (v, b) ∉ selectedTiles op sc vc := by
    intro hmem
    rw [mem_selectedTiles] at hmem
    exact h ⟨hmem.2.2.1, hmem.2.2.2⟩
  exact (run_any E op dt sc vc ng0 cell0 energy0).1 v b hnot

/-- C7: The per-layer moisture and per-frost-area ice values written back
into a tile's soil column in pass 2 are exactly the values of that tile on
entry, as captured into the snapshot buffer in pass 1 before any mutation. -/
theorem c7_writeback_equals_snapshot (E : Ext) (op : OptionsS) (dt : ℚ)
    (sc : SoilCon) (vc : VegCon) (ng0 : NodeGrid)
    (cell0 : Nat → Nat → CellTile) (energy0 : Nat → Nat → EnergyTile)
    (v b : Nat) (m : List ℚ) (i : List (List ℚ))
    (h : Event.writeBack v b m i ∈
      (outSt (compute_derived_state_vars E op dt sc vc ng0 cell0 energy0)).trace) :
    m = (List.range op.Nlayer).map (cell0 v b).layerMoist ∧
    i = (List.range op.Nlayer).map
      (fun l => (List.range op.Nfrost).map ((cell0 v b).layerIce l)) := by
  obtain ⟨_, evs2, htr, hpred⟩ := run_any E op dt sc vc ng0 cell0 energy0
  rw [htr] at h
  rcases List.mem_append.mp h with h1 | h1
  · obtain ⟨t, _, hsh⟩ := mem_p1evs h1
    rcases hsh with ⟨li, _, h2⟩ | ⟨li, f, _, _, h2⟩ | h2 <;> simp at h2
  · obtain ⟨t, _, hp⟩ := hpred (Event.writeBack v b m i) h1
    obtain ⟨rfl, rfl, hm, hi⟩ := hp
    constructor
    · rw [hm]
      simp only [Option.getD_some]
      exact map_range_captured_moist op (cell0 t.1 t.2)
    · rw [hi]
      simp only [Option.getD_some]
      exact map_range_captured_ice op (cell0 t.1 t.2)

/-- C8: The quick-flux ice-content invocation depends on the node
temperature profile only through the two node temperatures nearest the
surface: invocations agreeing on `T[0]` and `T[1]` (and on the tile layers
and soil parameters, which carry the mean annual deep temperature and the
layer-level retention parameters) yield identical outputs, whatever the
remaining node temperatures. -/
theorem c8_quick_flux_noninterference (E : Ext) (sc : SoilCon) (cl : CellTile)
    (T T2 : Nat → ℚ) (h0 : T 0 = T2 0) (h1 : T 1 = T2 1) :
    quickFluxInvocation E sc cl T = quickFluxInvocation E sc cl T2 := by
  unfold quickFluxInvocation
  rw [h0, h1]

/-- C10: Every pass-2 read of the snapshot buffer happens for a tile that
passed the positivity guards (whose inputs the routine never modifies), and
the snapshot entry it reads was written in pass 1 with the tile's captured
row. -/
theorem c10_reads_only_written (E : Ext) (op : OptionsS) (dt : ℚ)
    (sc : SoilCon) (vc : VegCon) (ng0 : NodeGrid)
    (cell0 : Nat → Nat → CellTile) (energy0 : Nat → Nat → EnergyTile)
    (v b : Nat) (e : Event)
    (he : e ∈ (outSt (compute_derived_state_vars E op dt sc vc ng0 cell0
      energy0)).trace)
    (hr : readsSnapAt v b e) :
    0 < vc.Cv v ∧ 0 < sc.AreaFract b ∧
    (pass1 E op sc vc (initSt ng0 cell0 energy0)).snap v b
      = some (capturedRow op (cell0 v b)) := by
  obtain ⟨_, evs2, htr, hpred⟩ := run_any E op dt sc vc ng0 cell0 energy0
  rw [htr] at he
  have hmem : (v, b) ∈ selectedTiles op sc vc := by
    rcases List.mem_append.mp he with h1 | h1
    · obtain ⟨t, _, hsh⟩ := mem_p1evs h1
      rcases hsh with ⟨li, _, rfl⟩ | ⟨li, f, _, _, rfl⟩ | rfl <;> exact hr.elim
    · obtain ⟨t, ht, hp⟩ := hpred e h1
      cases e with
      | snapReadM v3 b3 _ =>
        obtain ⟨rfl, rfl⟩ := And.intro hr.1 hr.2
        obtain ⟨h4, h5, _⟩ := hp
        rw [h4, h5]
        exact ht
      | snapReadI v3 b3 _ _ =>
        obtain ⟨rfl, rfl⟩ := And.intro hr.1 hr.2
        obtain ⟨h4, h5, _⟩ := hp
        rw [h4, h5]
        exact ht
      | distributeCall v3 b3 =>
        obtain ⟨rfl, rfl⟩ := And.intro hr.1 hr.2
        obtain ⟨h4, h5⟩ := hp
        rw [h4, h5]
        exact ht
      | snapWriteM _ _ _ => exact hr.elim
      | snapWriteI _ _ _ _ => exact hr.elim
      | runoffAsat _ _ => exact hr.elim
      | setNodeParams => exact hr.elim
      | stabCheck _ _ _ _ _ => exact hr.elim
      | stabWarn _ _ => exact hr.elim
      | writeBack _ _ _ _ => exact hr.elim
      | quickFluxCall _ _ => exact hr.elim
      | fullEstimateCall _ _ => exact hr.elim
      | frontsCall _ _ => exact hr.elim
  have hsel := (mem_selectedTiles op sc vc v b).mp hmem
  refine ⟨hsel.2.2.1, hsel.2.2.2, ?_⟩
  rw [pass1_eq]
  have := @p1go_snap_mem E op sc (selectedTiles op sc vc)
    (initSt ng0 cell0 energy0) v b hmem
  simpa [initSt] using this

/-- C9: Under the unchecked preconditions `Nveg + 1 ≤ MAX_VEG`,
`SNOW_BAND ≤ MAX_BANDS`, `Nlayer ≤ MAX_LAYERS` and `Nfrost ≤ MAX_FROST_AREAS`
— the routine itself tests none of them — every read and write of the
scratch snapshot arrays stays in range of the capacities. -/
theorem c9_snapshot_indexing_in_bounds (E : Ext) (op : OptionsS) (dt : ℚ)
    (sc : SoilCon) (vc : VegCon) (ng0 : NodeGrid)
    (cell0 : Nat → Nat → CellTile) (energy0 : Nat → Nat → EnergyTile)
    (mv mb ml mf : Nat)
    (hv : vc.vegetat_type_num + 1 ≤ mv) (hb : op.SNOW_BAND ≤ mb)
    (hl : op.Nlayer ≤ ml) (hf : op.Nfrost ≤ mf) :
    ∀ e ∈ (outSt (compute_derived_state_vars E op dt sc vc ng0 cell0
      energy0)).trace, snapAccessOKb mv mb ml mf e = true := by
  obtain ⟨_, evs2, htr, hpred⟩ := run_any E op dt sc vc ng0 cell0 energy0
  rw [htr]
  intro e he
  have bounds : ∀ t : Nat × Nat, t ∈ selectedTiles op sc vc →
      t.1 < mv ∧ t.2 < mb := by
    intro t ht
    have h := (mem_selectedTiles op sc vc t.1 t.2).mp ht
    exact ⟨Nat.lt_of_lt_of_le h.1 hv, Nat.lt_of_lt_of_le h.2.1 hb⟩
  rcases List.mem_append.mp he with h1 | h1
  · obtain ⟨t, ht, hsh⟩ := mem_p1evs h1
    obtain ⟨htv, htb⟩ := bounds t ht
    rcases hsh with ⟨li, hli, rfl⟩ | ⟨li, f, hli, hfr, rfl⟩ | rfl
    · simp only [snapAccessOKb, Bool.and_eq_true, decide_eq_true_eq]
      exact ⟨⟨htv, htb⟩, Nat.lt_of_lt_of_le hli hl⟩
    · simp only [snapAccessOKb, Bool.and_eq_true, decide_eq_true_eq]
      exact ⟨⟨⟨htv, htb⟩, Nat.lt_of_lt_of_le hli hl⟩, Nat.lt_of_lt_of_le hfr hf⟩
    · rfl
  · obtain ⟨t, ht, hp⟩ := hpred e h1
    obtain ⟨htv, htb⟩ := bounds t ht
    cases e with
    | snapWriteM _ _ _ => exact hp.elim
    | snapWriteI _ _ _ _ => exact hp.elim
    | runoffAsat _ _ => exact hp.elim
    | setNodeParams => rfl
    | distributeCall v3 b3 =>
      obtain ⟨rfl, rfl⟩ := hp
      simp only [snapAccessOKb, Bool.and_eq_true, decide_eq_true_eq]
      exact ⟨htv, htb⟩
    | stabCheck _ _ _ _ _ => rfl
    | stabWarn _ _ => rfl
    | snapReadM v3 b3 li =>
      obtain ⟨rfl, rfl, hli⟩ := hp
      simp only [snapAccessOKb, Bool.and_eq_true, decide_eq_true_eq]
      exact ⟨⟨htv, htb⟩, Nat.lt_of_lt_of_le hli hl⟩
    | snapReadI v3 b3 li f =>
      obtain ⟨rfl, rfl, hli, hfr⟩ := hp
      simp only [snapAccessOKb, Bool.and_eq_true, decide_eq_true_eq]
      exact ⟨⟨⟨htv, htb⟩, Nat.lt_of_lt_of_le hli hl⟩, Nat.lt_of_lt_of_le hfr hf⟩
    | writeBack _ _ _ _ => rfl
    | quickFluxCall _ _ => rfl
    | fullEstimateCall _ _ => rfl
    | frontsCall _ _ => rfl

/-- C1: With frozen-soil physics on, the scheme explicit and quick-flux off,
a selected tile whose configured time step exceeds its stability threshold
gets the advisory, a tile within the bound gets none, the run is never
aborted by the check, and every selected tile is still fully processed
(its write-back happens). -/
theorem c1_stability_advisory_nonfatal (E : Ext) (op : OptionsS) (dt : ℚ)
    (sc : SoilCon) (vc : VegCon) (ng0 : NodeGrid)
    (cell0 : Nat → Nat → CellTile) (energy0 : Nat → Nat → EnergyTile)
    (hok : extOk E) (hFS : op.FROZEN_SOIL = true) (hQF : op.QUICK_FLUX = false)
    (hIM : op.IMPLICIT = false) :
    ∃ st', compute_derived_state_vars E op dt sc vc ng0 cell0 energy0
        = .ok st' ∧
      ∀ v b, (v, b) ∈ selectedTiles op sc vc →
        ((tileThresh E op sc ng0 cell0 energy0 v b < dt →
            Event.stabWarn v b ∈ st'.trace) ∧
         (¬tileThresh E op sc ng0 cell0 energy0 v b < dt →
            Event.stabWarn v b ∉ st'.trace) ∧
         (∃ m i, Event.writeBack v b m i ∈ st'.trace)) := by
  obtain ⟨st', hrun, _, _, hwsound, hwcomp, hwb⟩ :=
    stab_master E op dt sc vc ng0 cell0 energy0 hok
  have hstab : (op.FROZEN_SOIL && !op.QUICK_FLUX && !op.IMPLICIT) = true :=
    (stabFlags_iff op).mpr ⟨hFS, hQF, hIM⟩
  refine ⟨st', hrun, fun v b hm => ⟨fun hlt => hwcomp v b hm hstab hlt,
    fun hnlt hmem => hnlt (hwsound v b hmem).2.2, hwb v b hm⟩⟩

/-- C2: The stability check is evaluated for a selected tile exactly when
frozen-soil physics is on, the implicit scheme is off and quick-flux is off;
its threshold is one-half times node-1 heat capacity over node-1
conductivity times the squared node-1 spacing; and the advisory fires for a
selected tile exactly when the configured step exceeds that threshold. -/
theorem c2_stability_guard_and_threshold (E : Ext) (op : OptionsS) (dt : ℚ)
    (sc : SoilCon) (vc : VegCon) (ng0 : NodeGrid)
    (cell0 : Nat → Nat → CellTile) (energy0 : Nat → Nat → EnergyTile)
    (hok : extOk E) :
    ∃ st', compute_derived_state_vars E op dt sc vc ng0 cell0 energy0
        = .ok st' ∧
      (∀ v b, (v, b) ∈ selectedTiles op sc vc →
        ((∃ c k th, Event.stabCheck v b c k th ∈ st'.trace) ↔
          (op.FROZEN_SOIL = true ∧ op.IMPLICIT = false ∧
            op.QUICK_FLUX = false))) ∧
      (∀ v b c k th, Event.stabCheck v b c k th ∈ st'.trace →
        (v, b) ∈ selectedTiles op sc vc ∧
        c = tileCs1 E op sc ng0 cell0 energy0 v b ∧
        k = tileKp1 E op sc ng0 cell0 energy0 v b ∧
        th = 1/2 * c / k * (sc.dz_node 1)^2) ∧
      (∀ v b, Event.stabWarn v b ∈ st'.trace ↔
        ((v, b) ∈ selectedTiles op sc vc ∧ op.FROZEN_SOIL = true ∧
          op.IMPLICIT = false ∧ op.QUICK_FLUX = false ∧
          tileThresh E op sc ng0 cell0 energy0 v b < dt)) := by
  obtain ⟨st', hrun, hsound, hcomp, hwsound, hwcomp, _⟩ :=
    stab_master E op dt sc vc ng0 cell0 energy0 hok
  refine ⟨st', hrun, ?_, ?_, ?_⟩
  · intro v b hm
    constructor
    · rintro ⟨c, k, th, hmem⟩
      obtain ⟨_, hstab, _⟩ := hsound v b c k th hmem
      obtain ⟨h1, h2, h3⟩ := (stabFlags_iff op).mp hstab
      exact ⟨h1, h3, h2⟩
    · rintro ⟨h1, h3, h2⟩
      exact ⟨_, _, _, hcomp v b hm ((stabFlags_iff op).mpr ⟨h1, h2, h3⟩)⟩
  · intro v b c k th hmem
    obtain ⟨hm, _, hc, hk, _, hth⟩ := hsound v b c k th hmem
    exact ⟨hm, hc, hk, hth⟩
  · intro v b
    constructor
    · intro hmem
      obtain ⟨hm, hstab, hlt⟩ := hwsound v b hmem
      obtain ⟨h1, h2, h3⟩ := (stabFlags_iff op).mp hstab
      exact ⟨hm, h1, h3, h2, hlt⟩
    · rintro ⟨hm, h1, h3, h2, hlt⟩
      exact hwcomp v b hm ((stabFlags_iff op).mpr ⟨h1, h2, h3⟩) hlt

/-- C3: With at least one selected tile, `set_node_parameters` executes
exactly once, as the very first pass-2 action (whichever tile comes first),
every later tile is processed with the node grid it produced, and that grid
is the run's final one; with zero selected tiles it never executes. -/
theorem c3_single_parameterization (E : Ext) (op : OptionsS) (dt : ℚ)
    (sc : SoilCon) (vc : VegCon) (ng0 : NodeGrid)
    (cell0 : Nat → Nat → CellTile) (energy0 : Nat → Nat → EnergyTile)
    (hok : extOk E) :
    ∃ st', compute_derived_state_vars E op dt sc vc ng0 cell0 energy0
        = .ok st' ∧
      (selectedTiles op sc vc = [] →
        st'.trace.count Event.setNodeParams = 0 ∧ st'.nodeGrid = ng0) ∧
      (selectedTiles op sc vc ≠ [] →
        st'.trace.count Event.setNodeParams = 1 ∧
        st'.nodeGrid = gridDerived E op sc ng0 ∧
        ∃ rest, st'.trace =
          (selectedTiles op sc vc).flatMap (fun t => tileEv1 op t.1 t.2) ++
            Event.setNodeParams :: rest) ∧
      (∀ l1 l2, selectedTiles op sc vc = l1 ++ l2 → l1 ≠ [] →
        ∃ stm, p2go E op dt sc l1
            (.ok { pass1 E op sc vc (initSt ng0 cell0 energy0)
              with firstVeg := true })
          = .ok stm ∧ stm.nodeGrid = gridDerived E op sc ng0) :=
  latch_master E op dt sc vc ng0 cell0 energy0 hok

/-- C6: If an early tile's node-moisture distribution or ice-content
estimation reports a property-derivation error, the whole cell run aborts
with exactly that failure state: the error is surfaced to the caller and no
tile after the failing one contributes a single pass-2 event. -/
theorem c6_error_aborts_cell (E : Ext) (op : OptionsS) (dt : ℚ) (sc : SoilCon)
    (vc : VegCon) (ng0 : NodeGrid) (cell0 : Nat → Nat → CellTile)
    (energy0 : Nat → Nat → EnergyTile) (l1 l2 : List (Nat × Nat)) (v b : Nat)
    (st1 : St)
    (hsel : selectedTiles op sc vc = l1 ++ (v, b) :: l2)
    (h1 : p2go E op dt sc l1
        (.ok { pass1 E op sc vc (initSt ng0 cell0 energy0)
          with firstVeg := true }) = .ok st1)
    (h2 : ∃ s, tileBody2 E op dt sc v b st1 = .error s) :
    ∃ st2, compute_derived_state_vars E op dt sc vc ng0 cell0 energy0
        = .error st2 ∧
      tileBody2 E op dt sc v b st1 = .error st2 ∧
      ∀ t2, t2 ∈ l2 → ∀ e, e ∈ st2.trace → ¬ isPass2TileEvent t2.1 t2.2 e := by
  obtain ⟨st2, h2⟩ := h2
  have hnd : (l1 ++ (v, b) :: l2).Nodup := hsel ▸ selectedTiles_nodup op sc vc
  have hdisj := List.disjoint_of_nodup_append hnd
  have hnd2 : ((v, b) :: l2).Nodup := (List.nodup_append.mp hnd).2.1
  have hvbl2 : (v, b) ∉ l2 := (List.nodup_cons.mp hnd2).1
  refine ⟨st2, ?_, h2, ?_⟩
  · unfold compute_derived_state_vars
    rw [pass2_eq, hsel, p2go_append, h1, p2go_cons]
    show p2go E op dt sc l2 (tileBody2 E op dt sc v b st1) = .error st2
    rw [h2]
    exact p2go_error E op dt sc l2 st2
  · intro t2 ht2 e he
    have ht2ne : (v, b) ≠ t2 := fun hEq => hvbl2 (hEq ▸ ht2)
    have ht2l1 : t2 ∉ l1 := fun hmem =>
      hdisj hmem (List.mem_cons_of_mem _ ht2)
    obtain ⟨hbs, _, evsB, hbt, hbpred⟩ := tileBody2_any E op dt sc v b st1
    rw [h2] at hbs hbt
    simp only [outSt_error] at hbs hbt
    obtain ⟨hs1, _, evs1, ht1, hpred1⟩ :=
      p2go_any E op dt sc l1
        (.ok { pass1 E op sc vc (initSt ng0 cell0 energy0)
          with firstVeg := true })
    rw [h1] at hs1 ht1
    simp only [outSt_ok] at hs1 ht1 hpred1
    rw [hbt, ht1] at he
    have hp1tr : ({ pass1 E op sc vc (initSt ng0 cell0 energy0)
        with firstVeg := true } : St).trace
        = (selectedTiles op sc vc).flatMap (fun t => tileEv1 op t.1 t.2) := by
      show (pass1 E op sc vc (initSt ng0 cell0 energy0)).trace = _
      rw [pass1_eq, p1go_trace]
      simp [initSt]
    rw [hp1tr] at he
    rcases List.mem_append.mp he with he1 | he1
    · rcases List.mem_append.mp he1 with he2 | he2
      · obtain ⟨t, _, hsh⟩ := mem_p1evs he2
        rcases hsh with ⟨li, _, rfl⟩ | ⟨li, f, _, _, rfl⟩ | rfl <;>
          intro hI <;> exact hI
      · obtain ⟨t, htl1, hp⟩ := hpred1 e he2
        refine tileEvPred_not_isPass2 op _ t.1 t.2 t2.1 t2.2 ?_ e hp
        rintro ⟨hEq1, hEq2⟩
        exact hdisj (show t ∈ l1 from htl1)
          (by
            rw [show t2 = t from Prod.ext hEq1.symm hEq2.symm] at ht2
            exact List.mem_cons_of_mem _ ht2)
    · refine tileEvPred_not_isPass2 op _ v b t2.1 t2.2 ?_ e (hbpred e he1)
      rintro ⟨hEq1, hEq2⟩
      exact ht2ne (Prod.ext hEq1 hEq2)

/-! ### Concrete instances used by the witnesses -/

/-- A total (never failing) instantiation of the external collaborators. -/
def okExt : Ext where
  compute_runoff_and_asat := fun _ _ => (0, 0)
  wrap_compute_zwt := fun _ _ => 0
  set_node_parameters := fun g _ _ _ => g
  distribute_node_moisture_properties :=
    fun _ _ _ _ _ _ => some (fun _ => 0, fun _ => 0, fun _ => 1, fun _ => 1)
  estimate_layer_ice_content_quick_flux := fun m i _ _ _ => some (m, i)
  estimate_layer_ice_content := fun m i _ _ _ _ _ => some (m, i)
  find_0_degree_fronts := fun _ _ _ => (fun _ => 0, fun _ => 0)

theorem okExt_ok : extOk okExt :=
  ⟨fun _ _ _ _ _ _ => rfl, fun _ _ _ _ _ => rfl, fun _ _ _ _ _ _ _ => rfl⟩

/-- An instantiation whose node-moisture distribution always reports a
property-derivation error. -/
def failExt : Ext :=
  { okExt with distribute_node_moisture_properties := fun _ _ _ _ _ _ => none }

def wOp : OptionsS :=
  { SNOW_BAND := 1, Nlayer := 1, Nfrost := 1, Nnode := 2,
    FULL_ENERGY := false, FROZEN_SOIL := true, QUICK_FLUX := false,
    IMPLICIT := false }

def wSc : SoilCon :=
  { AreaFract := fun _ => 1, dz_node := fun _ => 1, avg_temp := 0, dp := 0,
    FS_ACTIVE := false, depth := fun _ => 0, max_moist := fun _ => 0,
    expt := fun _ => 0, bubble := fun _ => 0, quartz := fun _ => 0,
    soil_density := fun _ => 0, bulk_density := fun _ => 0,
    soil_dens_min := fun _ => 0, bulk_dens_min := fun _ => 0,
    organic := fun _ => 0, frost_fract := fun _ => 0, frost_slope := 0,
    alpha := fun _ => 0, beta := fun _ => 0, gamma := fun _ => 0 }

def wVc : VegCon :=
  { vegetat_type_num := 0, Cv := fun v => if v = 0 then 1 else 0 }

/-- A quick-flux variant of the options, with the stability check disabled,
so that the whole run is free of rational arithmetic and traces evaluate
by `decide`. -/
def qOp : OptionsS :=
  { SNOW_BAND := 1, Nlayer := 1, Nfrost := 1, Nnode := 2,
    FULL_ENERGY := false, FROZEN_SOIL := false, QUICK_FLUX := true,
    IMPLICIT := false }

def wNg : NodeGrid :=
  { Zsum_node := fun _ => 0, max_moist_node := fun _ => 0,
    expt_node := fun _ => 0, bubble_node := fun _ => 0 }

def wCell : Nat → Nat → CellTile :=
  fun _ _ =>
    { layerMoist := fun _ => 1, layerIce := fun _ _ => 0, asat := 0, zwt := 0 }

def wEn : Nat → Nat → EnergyTile :=
  fun _ _ =>
    { T := fun _ => 0, moist := fun _ => 0, ice := fun _ => 0,
      kappa_node := fun _ => 0, Cs_node := fun _ => 0, fdepth := fun _ => 0,
      tdepth := fun _ => 0 }

theorem wVc_nonneg : ∀ v, 0 ≤ wVc.Cv v := by
  intro v
  by_cases h : v = 0 <;> simp [wVc, h]

/-! ### Witnesses -/

/-- Witness for C1 at a concrete one-tile configuration. -/
theorem c1_stability_advisory_nonfatal_witness :
    extOk okExt ∧ wOp.FROZEN_SOIL = true ∧ wOp.QUICK_FLUX = false ∧
    wOp.IMPLICIT = false ∧
    ∃ st', compute_derived_state_vars okExt wOp 1 wSc wVc wNg wCell wEn
        = .ok st' ∧
      ∀ v b, (v, b) ∈ selectedTiles wOp wSc wVc →
        ((tileThresh okExt wOp wSc wNg wCell wEn v b < 1 →
            Event.stabWarn v b ∈ st'.trace) ∧
         (¬tileThresh okExt wOp wSc wNg wCell wEn v b < 1 →
            Event.stabWarn v b ∉ st'.trace) ∧
         (∃ m i, Event.writeBack v b m i ∈ st'.trace)) :=
  ⟨okExt_ok, rfl, rfl, rfl,
    c1_stability_advisory_nonfatal okExt wOp 1 wSc wVc wNg wCell wEn
      okExt_ok rfl rfl rfl⟩

/-- Witness for C2 at a concrete one-tile configuration. -/
theorem c2_stability_guard_and_threshold_witness :
    extOk okExt ∧
    ∃ st', compute_derived_state_vars okExt wOp 1 wSc wVc wNg wCell wEn
        = .ok st' ∧
      (∀ v b, (v, b) ∈ selectedTiles wOp wSc wVc →
        ((∃ c k th, Event.stabCheck v b c k th ∈ st'.trace) ↔
          (wOp.FROZEN_SOIL = true ∧ wOp.IMPLICIT = false ∧
            wOp.QUICK_FLUX = false))) ∧
      (∀ v b c k th, Event.stabCheck v b c k th ∈ st'.trace →
        (v, b) ∈ selectedTiles wOp wSc wVc ∧
        c = tileCs1 okExt wOp wSc wNg wCell wEn v b ∧
        k = tileKp1 okExt wOp wSc wNg wCell wEn v b ∧
        th = 1/2 * c / k * (wSc.dz_node 1)^2) ∧
      (∀ v b, Event.stabWarn v b ∈ st'.trace ↔
        ((v, b) ∈ selectedTiles wOp wSc wVc ∧ wOp.FROZEN_SOIL = true ∧
          wOp.IMPLICIT = false ∧ wOp.QUICK_FLUX = false ∧
          tileThresh okExt wOp wSc wNg wCell wEn v b < 1)) :=
  ⟨okExt_ok,
    c2_stability_guard_and_threshold okExt wOp 1 wSc wVc wNg wCell wEn okExt_ok⟩

/-- Witness for C3 at a concrete one-tile configuration. -/
theorem c3_single_parameterization_witness :
    extOk okExt ∧
    ∃ st', compute_derived_state_vars okExt wOp 1 wSc wVc wNg wCell wEn
        = .ok st' ∧
      (selectedTiles wOp wSc wVc = [] →
        st'.trace.count Event.setNodeParams = 0 ∧ st'.nodeGrid = wNg) ∧
      (selectedTiles wOp wSc wVc ≠ [] →
        st'.trace.count Event.setNodeParams = 1 ∧
        st'.nodeGrid = gridDerived okExt wOp wSc wNg ∧
        ∃ rest, st'.trace =
          (selectedTiles wOp wSc wVc).flatMap (fun t => tileEv1 wOp t.1 t.2) ++
            Event.setNodeParams :: rest) ∧
      (∀ l1 l2, selectedTiles wOp wSc wVc = l1 ++ l2 → l1 ≠ [] →
        ∃ stm, p2go okExt wOp 1 wSc l1
            (.ok { pass1 okExt wOp wSc wVc (initSt wNg wCell wEn)
              with firstVeg := true })
          = .ok stm ∧ stm.nodeGrid = gridDerived okExt wOp wSc wNg) :=
  ⟨okExt_ok,
    c3_single_parameterization okExt wOp 1 wSc wVc wNg wCell wEn okExt_ok⟩

/-- Witness for C4 at a concrete one-tile configuration. -/
theorem c4_tile_selection_witness :
    (∀ v, 0 ≤ wVc.Cv v) ∧
    ((outSt (compute_derived_state_vars okExt wOp 1 wSc wVc wNg wCell
        wEn)).trace.filterMap
      (fun e => match e with
        | Event.runoffAsat v b => some (v, b)
        | _ => none))
      = specSelectedTiles wOp wSc wVc :=
  ⟨wVc_nonneg,
    c4_tile_selection okExt wOp 1 wSc wVc wNg wCell wEn wVc_nonneg⟩

/-- Witness for C5: the bare-soil-adjacent index 1 has zero cover fraction
and is untouched. -/
theorem c5_unselected_tile_untouched_witness :
    (¬(0 < wVc.Cv 1 ∧ 0 < wSc.AreaFract 0)) ∧
    ((outSt (compute_derived_state_vars okExt wOp 1 wSc wVc wNg wCell
        wEn)).cell 1 0 = wCell 1 0 ∧
     (outSt (compute_derived_state_vars okExt wOp 1 wSc wVc wNg wCell
        wEn)).energy 1 0 = wEn 1 0) :=
  ⟨by decide,
    c5_unselected_tile_untouched okExt wOp 1 wSc wVc wNg wCell wEn 1 0
      (by decide)⟩

/-- Witness for C6: with a failing node-moisture distribution, the single
selected tile aborts the run. -/
theorem c6_error_aborts_cell_witness :
    (selectedTiles wOp wSc wVc = [] ++ (0, 0) :: []) ∧
    (p2go failExt wOp 1 wSc []
        (.ok { pass1 failExt wOp wSc wVc (initSt wNg wCell wEn)
          with firstVeg := true })
      = .ok { pass1 failExt wOp wSc wVc (initSt wNg wCell wEn)
          with firstVeg := true }) ∧
    (∃ s, tileBody2 failExt wOp 1 wSc 0 0
        { pass1 failExt wOp wSc wVc (initSt wNg wCell wEn)
          with firstVeg := true } = .error s) ∧
    ∃ st2, compute_derived_state_vars failExt wOp 1 wSc wVc wNg wCell wEn
        = .error st2 ∧
      tileBody2 failExt wOp 1 wSc 0 0
        { pass1 failExt wOp wSc wVc (initSt wNg wCell wEn)
          with firstVeg := true } = .error st2 ∧
      ∀ t2, t2 ∈ ([] : List (Nat × Nat)) → ∀ e, e ∈ st2.trace →
        ¬ isPass2TileEvent t2.1 t2.2 e :=
  ⟨by decide, rfl, ⟨_, rfl⟩,
    c6_error_aborts_cell failExt wOp 1 wSc wVc wNg wCell wEn [] [] 0 0 _
      (by decide) rfl ⟨_, rfl⟩⟩

/-- Witness for C7: the write-back event of the single selected tile
carries exactly the entry moisture and ice. -/
theorem c7_writeback_equals_snapshot_witness :
    (Event.writeBack 0 0 [1] [[0]] ∈
      (outSt (compute_derived_state_vars okExt qOp 1 wSc wVc wNg wCell
        wEn)).trace) ∧
    ([1] = (List.range qOp.Nlayer).map (wCell 0 0).layerMoist ∧
     [[0]] = (List.range qOp.Nlayer).map
       (fun l => (List.range qOp.Nfrost).map ((wCell 0 0).layerIce l))) := by
  have h : Event.writeBack 0 0 [1] [[0]] ∈
      (outSt (compute_derived_state_vars okExt qOp 1 wSc wVc wNg wCell
        wEn)).trace := by decide
  exact ⟨h, c7_writeback_equals_snapshot okExt qOp 1 wSc wVc wNg wCell wEn
    0 0 [1] [[0]] h⟩

/-- Witness for C8 on two temperature profiles agreeing only at nodes 0
and 1. -/
theorem c8_quick_flux_noninterference_witness :
    ((fun n : Nat => (n : ℚ)) 0 = (fun n : Nat => if n < 2 then (n : ℚ) else 99) 0) ∧
    ((fun n : Nat => (n : ℚ)) 1 = (fun n : Nat => if n < 2 then (n : ℚ) else 99) 1) ∧
    quickFluxInvocation okExt wSc (wCell 0 0) (fun n : Nat => (n : ℚ))
      = quickFluxInvocation okExt wSc (wCell 0 0)
          (fun n : Nat => if n < 2 then (n : ℚ) else 99) :=
  ⟨by decide, by decide,
    c8_quick_flux_noninterference okExt wSc (wCell 0 0) _ _ (by decide)
      (by decide)⟩

/-- Witness for C9 with the usual capacities MAX_VEG = 12, MAX_BANDS = 10,
MAX_LAYERS = 3, MAX_FROST_AREAS = 10. -/
theorem c9_snapshot_indexing_in_bounds_witness :
    (wVc.vegetat_type_num + 1 ≤ 12 ∧ wOp.SNOW_BAND ≤ 10 ∧ wOp.Nlayer ≤ 3 ∧
      wOp.Nfrost ≤ 10) ∧
    ∀ e ∈ (outSt (compute_derived_state_vars okExt wOp 1 wSc wVc wNg wCell
      wEn)).trace, snapAccessOKb 12 10 3 10 e = true :=
  ⟨⟨by decide, by decide, by decide, by decide⟩,
    c9_snapshot_indexing_in_bounds okExt wOp 1 wSc wVc wNg wCell wEn 12 10 3 10
      (by decide) (by decide) (by decide) (by decide)⟩

/-- Witness for C10: a concrete pass-2 snapshot read of the selected tile. -/
theorem c10_reads_only_written_witness :
    (Event.snapReadM 0 0 0 ∈
      (outSt (compute_derived_state_vars okExt qOp 1 wSc wVc wNg wCell
        wEn)).trace) ∧
    readsSnapAt 0 0 (Event.snapReadM 0 0 0) ∧
    (0 < wVc.Cv 0 ∧ 0 < wSc.AreaFract 0 ∧
      (pass1 okExt qOp wSc wVc (initSt wNg wCell wEn)).snap 0 0
        = some (capturedRow qOp (wCell 0 0))) := by
  have h : Event.snapReadM 0 0 0 ∈
      (outSt (compute_derived_state_vars okExt qOp 1 wSc wVc wNg wCell
        wEn)).trace := by decide
  exact ⟨h, ⟨rfl, rfl⟩,
    c10_reads_only_written okExt qOp 1 wSc wVc wNg wCell wEn 0 0
      (Event.snapReadM 0 0 0) h ⟨rfl, rfl⟩⟩

end VIC
